import Mathlib

/-!
Verification of the palette-construction core of convimg (`src/palette.c`).

The development shallowly embeds `palette_generate`,
`palette_generate_with_images`, `palette_generate_builtin` and
`palette_automatic_build`.  External collaborators that are not part of the
sources (the color converter of `color.c`, the image decoder of `image.c`,
and the libimagequant quantizer) are modelled from the specification as
oracles: the loader is a function from paths to optional pixel buffers, and
the quantizer is a function from the assembled histogram to an optional
ordered color list.
-/

namespace Convimg

/-- An RGBA color with one byte per channel, as in `liq_color` and in the raw
`image->data` pixel buffer. -/
structure Rgba where
  r : Nat
  g : Nat
  b : Nat
  a : Nat
deriving DecidableEq, Repr

/-- Color bit-layout identifiers (`color_mode_t`).  Only the constant
`COLOR_MODE_1555_GBGR` appears in `palette.c`; the spec treats modes as an
opaque set, so they are numbered. -/
abbrev ColorMode := Nat

/-- The mode constant hardcoded in `palette_alloc` and in the builtin branch
of `palette_generate`. -/
def COLOR_MODE_1555_GBGR : ColorMode := 0

/-- A `color_t`: the RGBA bytes plus the mode-converted packed form.
Modelled from the spec: `color_convert` lives in `color.c`, which is not
among the sources; the spec describes the ColorConverter collaborator as a
pure total function computing the packed representation of a color for a
given mode.  The model records which mode, if any, the color has been
converted to. -/
structure Color where
  rgb : Rgba
  convertedMode : Option ColorMode
deriving DecidableEq, Repr

/-- Modelled from the spec: `color_convert` (absent `color.c`) computes the
packed representation of `c` for `mode`; the RGBA bytes are unchanged. -/
def color_convert (c : Color) (mode : ColorMode) : Color :=
  { c with convertedMode := some mode }

/-- A `palette_entry_t`: color, pinned slot, exact flag, table-occupancy
flag. -/
structure PaletteEntry where
  color : Color
  index : Nat
  exact : Bool
  valid : Bool
deriving DecidableEq, Repr

/-- The all-zero entry.  `palette_alloc` does not initialize the entry
table, so its initial contents are an input of the model; concrete examples
use this value for every slot. -/
def defaultEntry : PaletteEntry :=
  { color := { rgb := { r := 0, g := 0, b := 0, a := 0 }, convertedMode := none },
    index := 0, exact := false, valid := false }

/-- `PALETTE_MAX_ENTRIES` from `palette.h` (the table is 256 slots, as the
spec's capacity ceiling states). -/
def PALETTE_MAX_ENTRIES : Nat := 256

/-- The `palette_t` state that `palette_generate` reads and writes.  Images
are kept as paths; their pixel data comes from the loader oracle. -/
structure Palette where
  maxEntries : Nat
  numEntries : Nat
  fixedEntries : List PaletteEntry
  entries : Nat → PaletteEntry
  mode : ColorMode
  quantizeSpeed : Nat
  automatic : Bool
  name : String
  images : List String

/-- A tileset group of a conversion job (only its image paths matter to the
palette). -/
structure TilesetGroup where
  tilesets : List String

/-- A `convert_t` job descriptor as consumed by `palette_automatic_build`. -/
structure Convert where
  paletteName : String
  images : List String
  tilesetGroup : Option TilesetGroup

/-- The image loader oracle, modelling `image_load` (`image.c`, external to
the sources): a path yields the decoded flattened RGBA pixel list, or `none`
on decode failure. -/
abbrev Loader := String → Option (List Rgba)

/-- The quantizer oracle, modelling libimagequant's
`liq_histogram_quantize` / `liq_get_palette`: given the speed, the maximum
color count, the seeded fixed colors and the submitted pixel rows, it
produces an ordered color list or fails. -/
abbrev QuantFn := Nat → Nat → List Color → List (List Color) → Except Unit (List Rgba)

/-- The distinct failure exits of `palette_generate` (the C code returns the
integer 1 from each; the model tags the return site).  `nullDeref` marks the
branch in which the fixed-color resolution loop reads `liqpalette->count`
while `liqpalette` is still NULL. -/
inductive GenError where
  | imageLoadFailure
  | quantizeFailure
  | tooManyFixedColors
  | emptyPalette
  | nullDeref
deriving DecidableEq, Repr

/-- The observable outcome of one `palette_generate` call: the error exit (if
any), the resulting palette state, and the interaction with the external
quantizer (seeded colors, submitted pixel rows, whether quantization ran),
plus the resource-release flags of the libimagequant handles and the
`unused`-slot diagnostic count. -/
structure GenTrace where
  err : Option GenError
  palette : Palette
  seeds : List Color
  submitted : List (List Color)
  needQuantize : Bool
  quantInvoked : Bool
  quantColors : List Rgba
  histDestroyed : Bool
  attrDestroyed : Bool
  unused : Nat

/-- Lines 347-360: a pixel is dropped when its raw R, G, B bytes equal those
of some exact fixed entry (alpha ignored). -/
def matchesExactFixed (fixedEntries : List PaletteEntry) (p : Rgba) : Bool :=
  fixedEntries.any fun e =>
    e.exact && (p.r == e.color.rgb.r) && (p.g == e.color.rgb.g) && (p.b == e.color.rgb.b)

/-- Lines 334-375: the per-image filtering loop.  Surviving pixels are
mode-converted and compacted in order. -/
def filterImagePixels (fixedEntries : List PaletteEntry) (mode : ColorMode)
    (pixels : List Rgba) : List Color :=
  pixels.filterMap fun p =>
    if matchesExactFixed fixedEntries p then none
    else some (color_convert { rgb := p, convertedMode := none } mode)

/-- Lines 314-392: the image loop.  Each image is loaded in order; a load
failure aborts immediately (`none`).  An image whose filtered pixel list is
nonempty contributes one row to the histogram. -/
def processImages (loader : Loader) (fixedEntries : List PaletteEntry)
    (mode : ColorMode) : List String → Option (List (List Color))
  | [] => some []
  | img :: rest =>
    match loader img with
    | none => none
    | some pixels =>
      let row := filterImagePixels fixedEntries mode pixels
      match processImages loader fixedEntries mode rest with
      | none => none
      | some rows => some (if row.isEmpty then rows else row :: rows)

/-- The entry table together with the running `maxIndex` of
`palette_generate_with_images` (initialized to -1). -/
structure TableState where
  entries : Nat → PaletteEntry
  maxIndex : Int

/-- Lines 410-416: the color stored for one quantizer output entry.  The C
code copies only the r, g, b bytes into a local `color_t` (its alpha byte is
never written; the model uses 0) and converts it. -/
def quantStoredColor (mode : ColorMode) (q : Rgba) : Color :=
  color_convert { rgb := { r := q.r, g := q.g, b := q.b, a := 0 }, convertedMode := none } mode

/-- Lines 408-425 unrolled: store quantized color number `i` and continue.
The slot is marked valid; its other fields are untouched. -/
def storeQuantizedFrom (mode : ColorMode) : Nat → List Rgba → TableState → TableState
  | _, [], s => s
  | i, q :: rest, s =>
    storeQuantizedFrom mode (i + 1) rest
      { entries := Function.update s.entries i
          { s.entries i with color := quantStoredColor mode q, valid := true },
        maxIndex := max s.maxIndex (i : Int) }

/-- Lines 408-425: store the quantized palette at entries `0 .. count`. -/
def storeQuantized (mode : ColorMode) (qs : List Rgba) (s : TableState) : TableState :=
  storeQuantizedFrom mode 0 qs s

/-- Lines 442-444: the resolution search compares only the R, G, B bytes. -/
def rgbEq (c d : Color) : Bool :=
  (c.rgb.r == d.rgb.r) && (c.rgb.g == d.rgb.g) && (c.rgb.b == d.rgb.b)

/-- Lines 438-445 unrolled: scan from slot `j` with `n` slots left. -/
def findMatchFrom (entries : Nat → PaletteEntry) (fe : PaletteEntry) :
    Nat → Nat → Option Nat
  | _, 0 => none
  | j, n + 1 =>
    if rgbEq (entries j).color fe.color then some j
    else findMatchFrom entries fe (j + 1) n

/-- Lines 438-445: linear search of `entries[0 .. count)` for a slot whose
color matches the fixed color (the slot's valid flag is not consulted). -/
def findWindowMatch (count : Nat) (entries : Nat → PaletteEntry)
    (fe : PaletteEntry) : Option Nat :=
  findMatchFrom entries fe 0 count

/-- Lines 430-461, one non-exact fixed entry: search the first `count` slots
for its color; if found at `j`, swap `entries[j]` with
`entries[fe.index]`, force the pinned slot valid, and raise `maxIndex` to the
pinned index if needed.  If not found (or the entry is exact) nothing
happens. -/
def resolveNonExactStep (count : Nat) (s : TableState) (fe : PaletteEntry) : TableState :=
  if fe.exact = true then s
  else
    match findWindowMatch count s.entries fe with
    | none => s
    | some j =>
      { entries := Function.update
          (Function.update s.entries j (s.entries fe.index))
          fe.index { s.entries j with valid := true },
        maxIndex := max s.maxIndex (fe.index : Int) }

/-- Lines 430-461, whole loop.  For the first non-exact fixed entry the loop
bound reads `liqpalette->count`; when quantization never ran `liqpalette` is
still NULL and the C code dereferences it — the model returns the
distinguished `nullDeref` error there. -/
def resolveNonExactAll (liqpalette? : Option (List Rgba)) :
    List PaletteEntry → TableState → Except GenError TableState
  | [], s => .ok s
  | fe :: rest, s =>
    if fe.exact then resolveNonExactAll liqpalette? rest s
    else
      match liqpalette? with
      | none => .error .nullDeref
      | some qs => resolveNonExactAll liqpalette? rest (resolveNonExactStep qs.length s fe)

/-- Lines 481-487 unrolled: scan from slot `j` with `n` slots left, stopping
at the first slot that is not valid. -/
def firstFreeFrom (entries : Nat → PaletteEntry) : Nat → Nat → Nat
  | j, 0 => j
  | j, n + 1 => if !(entries j).valid then j else firstFreeFrom entries (j + 1) n

/-- Lines 481-487: linear scan of `[0, PALETTE_MAX_ENTRIES)` for the first
slot that is not valid; if every slot is valid the C loop runs off the end
with `j = PALETTE_MAX_ENTRIES` (an out-of-bounds write in C, index 256 in
the model's total table). -/
def firstFreeIndex (entries : Nat → PaletteEntry) : Nat :=
  firstFreeFrom entries 0 PALETTE_MAX_ENTRIES

/-- Lines 463-504, one exact fixed entry: convert its color, relocate the
current occupant of the pinned slot (if valid) to the first free slot found
by linear scan, write the exact entry at its pinned index with `valid`
forced, and raise `maxIndex`. -/
def placeExactStep (mode : ColorMode) (s : TableState) (fe : PaletteEntry) : TableState :=
  if fe.exact = false then s
  else if (s.entries fe.index).valid = true then
    { entries := Function.update
        (Function.update s.entries (firstFreeIndex s.entries) (s.entries fe.index))
        fe.index { fe with color := color_convert fe.color mode, valid := true },
      maxIndex := max (max s.maxIndex (firstFreeIndex s.entries : Int)) (fe.index : Int) }
  else
    { entries := Function.update s.entries fe.index
        { fe with color := color_convert fe.color mode, valid := true },
      maxIndex := max s.maxIndex (fe.index : Int) }

/-- Lines 463-504, whole loop (non-exact entries are skipped). -/
def placeExactAll (mode : ColorMode) (fixedEntries : List PaletteEntry)
    (s : TableState) : TableState :=
  fixedEntries.foldl (placeExactStep mode) s

/-- Lines 508-514: the `unused` diagnostic — slots below `numEntries` that
hold no valid entry ("holes"). -/
def countUnused (entries : Nat → PaletteEntry) (numEntries : Nat) : Nat :=
  ((List.range numEntries).filter fun k => !(entries k).valid).length

/-- Line 277-291: the number of exact fixed entries. -/
def exactCount (fixedEntries : List PaletteEntry) : Nat :=
  (fixedEntries.filter fun e => e.exact).length

/-- Lines 299-309: the fixed-entry list after the seeding loop, which
converts every non-exact fixed color in place. -/
def wiFixed1 (p : Palette) : List PaletteEntry :=
  p.fixedEntries.map fun e =>
    if e.exact then e else { e with color := color_convert e.color p.mode }

/-- Line 291: the quantization capacity (`maxEntries` local): the palette
capacity minus the exact fixed entries. -/
def wiQuantMax (p : Palette) : Nat :=
  p.maxEntries - exactCount p.fixedEntries

/-- Lines 299-309: the non-exact fixed colors seeded into the histogram, in
declaration order, already mode-converted. -/
def wiSeeds (p : Palette) : List Color :=
  ((wiFixed1 p).filter fun e => !e.exact).map fun e => e.color

/-- Lines 314-392: the image loop runs only while the quantization capacity
exceeds 1 (the capacity is loop-invariant, so either every image is
processed or none is). -/
def wiRows? (loader : Loader) (p : Palette) : Option (List (List Color)) :=
  if 1 < wiQuantMax p then processImages loader (wiFixed1 p) p.mode p.images
  else some []

/-- The fixed-entry list at the end of `palette_generate_with_images`: the
exact loop (line 473) has converted the exact colors in place as well. -/
def wiFixed2 (p : Palette) : List PaletteEntry :=
  (wiFixed1 p).map fun e =>
    if e.exact then { e with color := color_convert e.color p.mode } else e

/-- An error outcome of `palette_generate` (the palette keeps whatever state
it had at the exit point; fields describing quantizer interaction reflect the
work done so far). -/
def errTrace (e : GenError) (pal : Palette) (seeds : List Color)
    (submitted : List (List Color)) (needQuantize quantInvoked : Bool)
    (quantColors : List Rgba) (histDestroyed attrDestroyed : Bool) : GenTrace :=
  { err := some e, palette := pal, seeds := seeds, submitted := submitted,
    needQuantize := needQuantize, quantInvoked := quantInvoked,
    quantColors := quantColors, histDestroyed := histDestroyed,
    attrDestroyed := attrDestroyed, unused := 0 }

/-- Lines 394-403: the quantizer is invoked only when some pixels were
submitted; `none` in the success case means `liqpalette` stays NULL. -/
def wiQuantRes (quant : QuantFn) (p : Palette) (rows : List (List Color)) :
    Except Unit (Option (List Rgba)) :=
  if !rows.isEmpty then (quant p.quantizeSpeed (wiQuantMax p) (wiSeeds p) rows).map some
  else .ok none

/-- The table state entering the resolution phase: the quantized colors
stored at `entries[0 .. count)` (lines 408-425) when quantization ran, the
untouched input table otherwise; `maxIndex` starts at -1 (line 267). -/
def wiStart (p : Palette) (liqpalette? : Option (List Rgba)) : TableState :=
  match liqpalette? with
  | some qs => storeQuantized p.mode qs { entries := p.entries, maxIndex := -1 }
  | none => { entries := p.entries, maxIndex := -1 }

/-- The success outcome of `palette_generate_with_images` (lines 506-524). -/
def wiSuccess (p : Palette) (rows : List (List Color))
    (liqpalette? : Option (List Rgba)) (s2 : TableState) : GenTrace :=
  let s3 := placeExactAll p.mode (wiFixed1 p) s2
  let n := (s3.maxIndex + 1).toNat
  let pal : Palette :=
    { p with entries := s3.entries, numEntries := n, fixedEntries := wiFixed2 p }
  { err := none,
    palette := pal,
    seeds := wiSeeds p, submitted := rows, needQuantize := !rows.isEmpty,
    quantInvoked := liqpalette?.isSome, quantColors := liqpalette?.getD [],
    histDestroyed := true, attrDestroyed := true,
    unused := countUnused s3.entries n }

/-- `palette_generate_with_images` (lines 259-525): assemble the histogram
(seeds, then filtered image rows), quantize if any pixels were submitted,
store the quantized colors, resolve non-exact fixed entries by swapping,
place exact fixed entries, and set `numEntries = maxIndex + 1`. -/
def palette_generate_with_images (quant : QuantFn) (loader : Loader)
    (p : Palette) : GenTrace :=
  match wiRows? loader p with
  | none =>
    errTrace .imageLoadFailure { p with fixedEntries := wiFixed1 p } (wiSeeds p)
      [] false false [] true true
  | some rows =>
    match wiQuantRes quant p rows with
    | .error _ =>
      errTrace .quantizeFailure { p with fixedEntries := wiFixed1 p } (wiSeeds p)
        rows (!rows.isEmpty) true [] true true
    | .ok liqpalette? =>
      match resolveNonExactAll liqpalette? (wiFixed1 p) (wiStart p liqpalette?) with
      | .error e =>
        errTrace e { p with fixedEntries := wiFixed1 p } (wiSeeds p) rows
          (!rows.isEmpty) liqpalette?.isSome (liqpalette?.getD []) false false
      | .ok s2 => wiSuccess p rows liqpalette? s2

/-- The mode-converted color of builtin entry `i`: the RGB triplet at offset
`3*i` of the flattened table, alpha 255 (line 199-204). -/
def builtinColor (builtin : List Nat) (mode : ColorMode) (i : Nat) : Color :=
  color_convert
    { rgb := { r := builtin.getD (3 * i) 0, g := builtin.getD (3 * i + 1) 0,
               b := builtin.getD (3 * i + 2) 0, a := 255 },
      convertedMode := none } mode

/-- Lines 195-209 unrolled, ascending from slot `i` with `n` entries left:
write each builtin color into its slot; the slot's other fields (`index`,
`exact`, `valid`) are untouched. -/
def builtinStoreFrom (builtin : List Nat) (mode : ColorMode) :
    Nat → Nat → (Nat → PaletteEntry) → (Nat → PaletteEntry)
  | _, 0, ents => ents
  | i, n + 1, ents =>
    builtinStoreFrom builtin mode (i + 1) n
      (Function.update ents i { ents i with color := builtinColor builtin mode i })

/-- Lines 195-209: the builtin conversion loop over slots `0 .. n`. -/
def builtinStore (builtin : List Nat) (mode : ColorMode) (n : Nat)
    (ents : Nat → PaletteEntry) : Nat → PaletteEntry :=
  builtinStoreFrom builtin mode 0 n ents

/-- `palette_generate_builtin` (lines 188-214): convert `numEntries` RGB
triplets of the builtin table into the given mode and set
`numEntries`; nothing else of the palette is consulted or changed. -/
def palette_generate_builtin (p : Palette) (builtin : List Nat)
    (numEntries : Nat) (mode : ColorMode) : Palette :=
  { p with entries := builtinStore builtin mode numEntries p.entries,
           numEntries := numEntries }

/-- `palette_automatic_build` (lines 219-257): for every job whose palette
name matches, append its images and then its tileset-group images, in
declaration order.  (`palette_add_image` can only fail on allocation
failure, which the model does not represent.) -/
def palette_automatic_build (p : Palette) (converts : List Convert) : Palette :=
  converts.foldl
    (fun acc cv =>
      if acc.name = cv.paletteName then
        { acc with images := acc.images ++ cv.images ++
            (match cv.tilesetGroup with
             | none => []
             | some tg => tg.tilesets) }
      else acc)
    p

/-- The builtin `xlibc` reference table (lines of `palette.c`):
256 RGB byte triplets, flattened exactly as the C `uint8_t palette_xlibc[]` data. -/
def palette_xlibc : List Nat := [
  0x00,0x00,0x00,0x00,0x20,0x08,0x00,0x41,0x10,0x00,0x61,0x18,
  0x00,0x82,0x21,0x00,0xA2,0x29,0x00,0xC3,0x31,0x00,0xE3,0x39,
  0x08,0x00,0x42,0x08,0x20,0x4A,0x08,0x41,0x52,0x08,0x61,0x5A,
  0x08,0x82,0x63,0x08,0xA2,0x6B,0x08,0xC3,0x73,0x08,0xE3,0x7B,
  0x10,0x00,0x84,0x10,0x20,0x8C,0x10,0x41,0x94,0x10,0x61,0x9C,
  0x10,0x82,0xA5,0x10,0xA2,0xAD,0x10,0xC3,0xB5,0x10,0xE3,0xBD,
  0x18,0x00,0xC6,0x18,0x20,0xCE,0x18,0x41,0xD6,0x18,0x61,0xDE,
  0x18,0x82,0xE7,0x18,0xA2,0xEF,0x18,0xC3,0xF7,0x18,0xE3,0xFF,
  0x21,0x04,0x00,0x21,0x24,0x08,0x21,0x45,0x10,0x21,0x65,0x18,
  0x21,0x86,0x21,0x21,0xA6,0x29,0x21,0xC7,0x31,0x21,0xE7,0x39,
  0x29,0x04,0x42,0x29,0x24,0x4A,0x29,0x45,0x52,0x29,0x65,0x5A,
  0x29,0x86,0x63,0x29,0xA6,0x6B,0x29,0xC7,0x73,0x29,0xE7,0x7B,
  0x31,0x04,0x84,0x31,0x24,0x8C,0x31,0x45,0x94,0x31,0x65,0x9C,
  0x31,0x86,0xA5,0x31,0xA6,0xAD,0x31,0xC7,0xB5,0x31,0xE7,0xBD,
  0x39,0x04,0xC6,0x39,0x24,0xCE,0x39,0x45,0xD6,0x39,0x65,0xDE,
  0x39,0x86,0xE7,0x39,0xA6,0xEF,0x39,0xC7,0xF7,0x39,0xE7,0xFF,
  0x42,0x08,0x00,0x42,0x28,0x08,0x42,0x49,0x10,0x42,0x69,0x18,
  0x42,0x8A,0x21,0x42,0xAA,0x29,0x42,0xCB,0x31,0x42,0xEB,0x39,
  0x4A,0x08,0x42,0x4A,0x28,0x4A,0x4A,0x49,0x52,0x4A,0x69,0x5A,
  0x4A,0x8A,0x63,0x4A,0xAA,0x6B,0x4A,0xCB,0x73,0x4A,0xEB,0x7B,
  0x52,0x08,0x84,0x52,0x28,0x8C,0x52,0x49,0x94,0x52,0x69,0x9C,
  0x52,0x8A,0xA5,0x52,0xAA,0xAD,0x52,0xCB,0xB5,0x52,0xEB,0xBD,
  0x5A,0x08,0xC6,0x5A,0x28,0xCE,0x5A,0x49,0xD6,0x5A,0x69,0xDE,
  0x5A,0x8A,0xE7,0x5A,0xAA,0xEF,0x5A,0xCB,0xF7,0x5A,0xEB,0xFF,
  0x63,0x0C,0x00,0x63,0x2C,0x08,0x63,0x4D,0x10,0x63,0x6D,0x18,
  0x63,0x8E,0x21,0x63,0xAE,0x29,0x63,0xCF,0x31,0x63,0xEF,0x39,
  0x6B,0x0C,0x42,0x6B,0x2C,0x4A,0x6B,0x4D,0x52,0x6B,0x6D,0x5A,
  0x6B,0x8E,0x63,0x6B,0xAE,0x6B,0x6B,0xCF,0x73,0x6B,0xEF,0x7B,
  0x73,0x0C,0x84,0x73,0x2C,0x8C,0x73,0x4D,0x94,0x73,0x6D,0x9C,
  0x73,0x8E,0xA5,0x73,0xAE,0xAD,0x73,0xCF,0xB5,0x73,0xEF,0xBD,
  0x7B,0x0C,0xC6,0x7B,0x2C,0xCE,0x7B,0x4D,0xD6,0x7B,0x6D,0xDE,
  0x7B,0x8E,0xE7,0x7B,0xAE,0xEF,0x7B,0xCF,0xF7,0x7B,0xEF,0xFF,
  0x84,0x10,0x00,0x84,0x30,0x08,0x84,0x51,0x10,0x84,0x71,0x18,
  0x84,0x92,0x21,0x84,0xB2,0x29,0x84,0xD3,0x31,0x84,0xF3,0x39,
  0x8C,0x10,0x42,0x8C,0x30,0x4A,0x8C,0x51,0x52,0x8C,0x71,0x5A,
  0x8C,0x92,0x63,0x8C,0xB2,0x6B,0x8C,0xD3,0x73,0x8C,0xF3,0x7B,
  0x94,0x10,0x84,0x94,0x30,0x8C,0x94,0x51,0x94,0x94,0x71,0x9C,
  0x94,0x92,0xA5,0x94,0xB2,0xAD,0x94,0xD3,0xB5,0x94,0xF3,0xBD,
  0x9C,0x10,0xC6,0x9C,0x30,0xCE,0x9C,0x51,0xD6,0x9C,0x71,0xDE,
  0x9C,0x92,0xE7,0x9C,0xB2,0xEF,0x9C,0xD3,0xF7,0x9C,0xF3,0xFF,
  0xA5,0x14,0x00,0xA5,0x34,0x08,0xA5,0x55,0x10,0xA5,0x75,0x18,
  0xA5,0x96,0x21,0xA5,0xB6,0x29,0xA5,0xD7,0x31,0xA5,0xF7,0x39,
  0xAD,0x14,0x42,0xAD,0x34,0x4A,0xAD,0x55,0x52,0xAD,0x75,0x5A,
  0xAD,0x96,0x63,0xAD,0xB6,0x6B,0xAD,0xD7,0x73,0xAD,0xF7,0x7B,
  0xB5,0x14,0x84,0xB5,0x34,0x8C,0xB5,0x55,0x94,0xB5,0x75,0x9C,
  0xB5,0x96,0xA5,0xB5,0xB6,0xAD,0xB5,0xD7,0xB5,0xB5,0xF7,0xBD,
  0xBD,0x14,0xC6,0xBD,0x34,0xCE,0xBD,0x55,0xD6,0xBD,0x75,0xDE,
  0xBD,0x96,0xE7,0xBD,0xB6,0xEF,0xBD,0xD7,0xF7,0xBD,0xF7,0xFF,
  0xC6,0x18,0x00,0xC6,0x38,0x08,0xC6,0x59,0x10,0xC6,0x79,0x18,
  0xC6,0x9A,0x21,0xC6,0xBA,0x29,0xC6,0xDB,0x31,0xC6,0xFB,0x39,
  0xCE,0x18,0x42,0xCE,0x38,0x4A,0xCE,0x59,0x52,0xCE,0x79,0x5A,
  0xCE,0x9A,0x63,0xCE,0xBA,0x6B,0xCE,0xDB,0x73,0xCE,0xFB,0x7B,
  0xD6,0x18,0x84,0xD6,0x38,0x8C,0xD6,0x59,0x94,0xD6,0x79,0x9C,
  0xD6,0x9A,0xA5,0xD6,0xBA,0xAD,0xD6,0xDB,0xB5,0xD6,0xFB,0xBD,
  0xDE,0x18,0xC6,0xDE,0x38,0xCE,0xDE,0x59,0xD6,0xDE,0x79,0xDE,
  0xDE,0x9A,0xE7,0xDE,0xBA,0xEF,0xDE,0xDB,0xF7,0xDE,0xFB,0xFF,
  0xE7,0x1C,0x00,0xE7,0x3C,0x08,0xE7,0x5D,0x10,0xE7,0x7D,0x18,
  0xE7,0x9E,0x21,0xE7,0xBE,0x29,0xE7,0xDF,0x31,0xE7,0xFF,0x39,
  0xEF,0x1C,0x42,0xEF,0x3C,0x4A,0xEF,0x5D,0x52,0xEF,0x7D,0x5A,
  0xEF,0x9E,0x63,0xEF,0xBE,0x6B,0xEF,0xDF,0x73,0xEF,0xFF,0x7B,
  0xF7,0x1C,0x84,0xF7,0x3C,0x8C,0xF7,0x5D,0x94,0xF7,0x7D,0x9C,
  0xF7,0x9E,0xA5,0xF7,0xBE,0xAD,0xF7,0xDF,0xB5,0xF7,0xFF,0xBD,
  0xFF,0x1C,0xC6,0xFF,0x3C,0xCE,0xFF,0x5D,0xD6,0xFF,0x7D,0xDE,
  0xFF,0x9E,0xE7,0xFF,0xBE,0xEF,0xFF,0xDF,0xF7,0xFF,0xFF,0xFF]

/-- The builtin `rgb332` reference table (lines of `palette.c`):
256 RGB byte triplets, flattened exactly as the C `uint8_t palette_rgb332[]` data. -/
def palette_rgb332 : List Nat := [
  0x00,0x00,0x00,0x00,0x00,0x68,0x00,0x00,0xB7,0x00,0x00,0xFF,
  0x33,0x00,0x00,0x33,0x00,0x68,0x33,0x00,0xB7,0x33,0x00,0xFF,
  0x5C,0x00,0x00,0x5C,0x00,0x68,0x5C,0x00,0xB7,0x5C,0x00,0xFF,
  0x7F,0x00,0x00,0x7F,0x00,0x68,0x7F,0x00,0xB7,0x7F,0x00,0xFF,
  0xA2,0x00,0x00,0xA2,0x00,0x68,0xA2,0x00,0xB7,0xA2,0x00,0xFF,
  0xC1,0x00,0x00,0xC1,0x00,0x68,0xC1,0x00,0xB7,0xC1,0x00,0xFF,
  0xE1,0x00,0x00,0xE1,0x00,0x68,0xE1,0x00,0xB7,0xE1,0x00,0xFF,
  0xFF,0x00,0x00,0xFF,0x00,0x68,0xFF,0x00,0xB7,0xFF,0x00,0xFF,
  0x00,0x33,0x00,0x00,0x33,0x68,0x00,0x33,0xB7,0x00,0x33,0xFF,
  0x33,0x33,0x00,0x33,0x33,0x68,0x33,0x33,0xB7,0x33,0x33,0xFF,
  0x5C,0x33,0x00,0x5C,0x33,0x68,0x5C,0x33,0xB7,0x5C,0x33,0xFF,
  0x7F,0x33,0x00,0x7F,0x33,0x68,0x7F,0x33,0xB7,0x7F,0x33,0xFF,
  0xA2,0x33,0x00,0xA2,0x33,0x68,0xA2,0x33,0xB7,0xA2,0x33,0xFF,
  0xC1,0x33,0x00,0xC1,0x33,0x68,0xC1,0x33,0xB7,0xC1,0x33,0xFF,
  0xE1,0x33,0x00,0xE1,0x33,0x68,0xE1,0x33,0xB7,0xE1,0x33,0xFF,
  0xFF,0x33,0x00,0xFF,0x33,0x68,0xFF,0x33,0xB7,0xFF,0x33,0xFF,
  0x00,0x5C,0x00,0x00,0x5C,0x68,0x00,0x5C,0xB7,0x00,0x5C,0xFF,
  0x33,0x5C,0x00,0x33,0x5C,0x68,0x33,0x5C,0xB7,0x33,0x5C,0xFF,
  0x5C,0x5C,0x00,0x5C,0x5C,0x68,0x5C,0x5C,0xB7,0x5C,0x5C,0xFF,
  0x7F,0x5C,0x00,0x7F,0x5C,0x68,0x7F,0x5C,0xB7,0x7F,0x5C,0xFF,
  0xA2,0x5C,0x00,0xA2,0x5C,0x68,0xA2,0x5C,0xB7,0xA2,0x5C,0xFF,
  0xC1,0x5C,0x00,0xC1,0x5C,0x68,0xC1,0x5C,0xB7,0xC1,0x5C,0xFF,
  0xE1,0x5C,0x00,0xE1,0x5C,0x68,0xE1,0x5C,0xB7,0xE1,0x5C,0xFF,
  0xFF,0x5C,0x00,0xFF,0x5C,0x68,0xFF,0x5C,0xB7,0xFF,0x5C,0xFF,
  0x00,0x7F,0x00,0x00,0x7F,0x68,0x00,0x7F,0xB7,0x00,0x7F,0xFF,
  0x33,0x7F,0x00,0x33,0x7F,0x68,0x33,0x7F,0xB7,0x33,0x7F,0xFF,
  0x5C,0x7F,0x00,0x5C,0x7F,0x68,0x5C,0x7F,0xB7,0x5C,0x7F,0xFF,
  0x7F,0x7F,0x00,0x7F,0x7F,0x68,0x7F,0x7F,0xB7,0x7F,0x7F,0xFF,
  0xA2,0x7F,0x00,0xA2,0x7F,0x68,0xA2,0x7F,0xB7,0xA2,0x7F,0xFF,
  0xC1,0x7F,0x00,0xC1,0x7F,0x68,0xC1,0x7F,0xB7,0xC1,0x7F,0xFF,
  0xE1,0x7F,0x00,0xE1,0x7F,0x68,0xE1,0x7F,0xB7,0xE1,0x7F,0xFF,
  0xFF,0x7F,0x00,0xFF,0x7F,0x68,0xFF,0x7F,0xB7,0xFF,0x7F,0xFF,
  0x00,0xA2,0x00,0x00,0xA2,0x68,0x00,0xA2,0xB7,0x00,0xA2,0xFF,
  0x33,0xA2,0x00,0x33,0xA2,0x68,0x33,0xA2,0xB7,0x33,0xA2,0xFF,
  0x5C,0xA2,0x00,0x5C,0xA2,0x68,0x5C,0xA2,0xB7,0x5C,0xA2,0xFF,
  0x7F,0xA2,0x00,0x7F,0xA2,0x68,0x7F,0xA2,0xB7,0x7F,0xA2,0xFF,
  0xA2,0xA2,0x00,0xA2,0xA2,0x68,0xA2,0xA2,0xB7,0xA2,0xA2,0xFF,
  0xC1,0xA2,0x00,0xC1,0xA2,0x68,0xC1,0xA2,0xB7,0xC1,0xA2,0xFF,
  0xE1,0xA2,0x00,0xE1,0xA2,0x68,0xE1,0xA2,0xB7,0xE1,0xA2,0xFF,
  0xFF,0xA2,0x00,0xFF,0xA2,0x68,0xFF,0xA2,0xB7,0xFF,0xA2,0xFF,
  0x00,0xC1,0x00,0x00,0xC1,0x68,0x00,0xC1,0xB7,0x00,0xC1,0xFF,
  0x33,0xC1,0x00,0x33,0xC1,0x68,0x33,0xC1,0xB7,0x33,0xC1,0xFF,
  0x5C,0xC1,0x00,0x5C,0xC1,0x68,0x5C,0xC1,0xB7,0x5C,0xC1,0xFF,
  0x7F,0xC1,0x00,0x7F,0xC1,0x68,0x7F,0xC1,0xB7,0x7F,0xC1,0xFF,
  0xA2,0xC1,0x00,0xA2,0xC1,0x68,0xA2,0xC1,0xB7,0xA2,0xC1,0xFF,
  0xC1,0xC1,0x00,0xC1,0xC1,0x68,0xC1,0xC1,0xB7,0xC1,0xC1,0xFF,
  0xE1,0xC1,0x00,0xE1,0xC1,0x68,0xE1,0xC1,0xB7,0xE1,0xC1,0xFF,
  0xFF,0xC1,0x00,0xFF,0xC1,0x68,0xFF,0xC1,0xB7,0xFF,0xC1,0xFF,
  0x00,0xE1,0x00,0x20,0xE1,0x68,0x00,0xE1,0xB7,0x00,0xE1,0xFF,
  0x33,0xE1,0x00,0x33,0xE1,0x68,0x33,0xE1,0xB7,0x33,0xE1,0xFF,
  0x5C,0xE1,0x00,0x5C,0xE1,0x68,0x5C,0xE1,0xB7,0x5C,0xE1,0xFF,
  0x7F,0xE1,0x00,0x7F,0xE1,0x68,0x7F,0xE1,0xB7,0x7F,0xE1,0xFF,
  0xA2,0xE1,0x00,0xA2,0xE1,0x68,0xA2,0xE1,0xB7,0xA2,0xE1,0xFF,
  0xC1,0xE1,0x00,0xC1,0xE1,0x68,0xC1,0xE1,0xB7,0xC1,0xE1,0xFF,
  0xE1,0xE1,0x00,0xE1,0xE1,0x68,0xE1,0xE1,0xB7,0xE1,0xE1,0xFF,
  0xFF,0xE1,0x00,0xFF,0xE1,0x68,0xFF,0xE1,0xB7,0xFF,0xE1,0xFF,
  0x00,0xFF,0x00,0x00,0xFF,0x68,0x00,0xFF,0xB7,0x00,0xFF,0xFF,
  0x33,0xFF,0x00,0x33,0xFF,0x68,0x33,0xFF,0xB7,0x33,0xFF,0xFF,
  0x5C,0xFF,0x00,0x5C,0xFF,0x68,0x5C,0xFF,0xB7,0x5C,0xFF,0xFF,
  0x7F,0xFF,0x00,0x7F,0xFF,0x68,0x7F,0xFF,0xB7,0x7F,0xFF,0xFF,
  0xA2,0xFF,0x00,0xA2,0xFF,0x68,0xA2,0xFF,0xB7,0xA2,0xFF,0xFF,
  0xC1,0xFF,0x00,0xC1,0xFF,0x68,0xC1,0xFF,0xB7,0xC1,0xFF,0xFF,
  0xE1,0xFF,0x00,0xE1,0xFF,0x68,0xE1,0xFF,0xB7,0xE1,0xFF,0xFF,
  0xFF,0xFF,0x00,0xFF,0xFF,0x68,0xFF,0xFF,0xB7,0xFF,0xFF,0xFF]

/-- A success outcome that never touched the quantizer (builtin and
no-images branches). -/
def pureTrace (pal : Palette) : GenTrace :=
  { err := none, palette := pal, seeds := [], submitted := [],
    needQuantize := false, quantInvoked := false, quantColors := [],
    histDestroyed := false, attrDestroyed := false, unused := 0 }

/-- Lines 595-605: the no-images placement loop — every fixed entry is
copied verbatim (no conversion, `valid` not forced) to its pinned index. -/
def directPlace (fixedEntries : List PaletteEntry) (s : TableState) : TableState :=
  fixedEntries.foldl
    (fun st fe =>
      { entries := Function.update st.entries fe.index fe,
        maxIndex := max st.maxIndex (fe.index : Int) })
    s

/-- Lines 556-564: the palette after the (possibly skipped) automatic image
collection step. -/
def generateP1 (p : Palette) (converts : List Convert) : Palette :=
  if p.automatic then palette_automatic_build p converts else p

/-- `palette_generate` (lines 530-613): builtin bypass, automatic image
collection, capacity guard, then either the image pipeline or the
fixed-entries-only branch. -/
def palette_generate (quant : QuantFn) (loader : Loader) (p : Palette)
    (converts : List Convert) : GenTrace :=
  if p.name = "xlibc" then
    pureTrace (palette_generate_builtin p palette_xlibc PALETTE_MAX_ENTRIES COLOR_MODE_1555_GBGR)
  else if p.name = "rgb332" then
    pureTrace (palette_generate_builtin p palette_rgb332 PALETTE_MAX_ENTRIES COLOR_MODE_1555_GBGR)
  else
    let p1 := generateP1 p converts
    if p1.maxEntries < p1.fixedEntries.length then
      errTrace .tooManyFixedColors p1 [] [] false false [] false false
    else if 0 < p1.images.length then
      palette_generate_with_images quant loader p1
    else if p1.fixedEntries.length = 0 then
      errTrace .emptyPalette p1 [] [] false false [] false false
    else
      let st := directPlace p1.fixedEntries { entries := p1.entries, maxIndex := -1 }
      pureTrace { p1 with entries := st.entries, numEntries := (st.maxIndex + 1).toNat }

/-! ### Specification predicates -/

/-- The running-maximum invariant of the resolution phase: `maxIndex` is at
least -1, every slot above it is invalid, and the slot at `maxIndex` (when
it exists) is valid. -/
def InvJ (s : TableState) : Prop :=
  (-1 ≤ s.maxIndex) ∧
  (∀ k : Nat, s.maxIndex < (k : Int) → (s.entries k).valid = false) ∧
  (∀ k : Nat, (k : Int) = s.maxIndex → (s.entries k).valid = true)

/-- The window invariant of the non-exact resolution loop over the `count`
quantized slots: `maxIndex` is at least `count - 1`, and either the whole
window is still valid or `maxIndex` has moved past it. -/
def InvW (count : Nat) (s : TableState) : Prop :=
  ((count : Int) - 1 ≤ s.maxIndex) ∧
  ((∀ k, k < count → (s.entries k).valid = true) ∨ (count : Int) ≤ s.maxIndex)

/-- The raw R, G, B triple of a color (the bytes the filtering and
resolution comparisons read). -/
def rgb3 (q : Rgba) : Nat × Nat × Nat := (q.r, q.g, q.b)

/-- Sum of a per-entry weight over the table slots `0 .. 256` (slot 256
included: the relocation scan of lines 481-487 writes there when every
in-table slot is valid, which in C is the out-of-bounds write). -/
def tableSum (g : PaletteEntry → Nat) (e : Nat → PaletteEntry) : Nat :=
  ∑ k ∈ Finset.range (PALETTE_MAX_ENTRIES + 1), g (e k)

/-- How many table slots hold a valid entry with exactly this color. -/
def colorCount (e : Nat → PaletteEntry) (c : Color) : Nat :=
  tableSum (fun en => if en.valid = true ∧ en.color = c then 1 else 0) e

/-- How many table slots hold a valid entry. -/
def validCount (e : Nat → PaletteEntry) : Nat :=
  tableSum (fun en => if en.valid = true then 1 else 0) e

/-- The number of non-exact fixed entries (the ones the swap loop of lines
430-461 processes). -/
def nonExactCount (fixedEntries : List PaletteEntry) : Nat :=
  (fixedEntries.filter fun e => !e.exact).length

/-! ### Concrete example inputs used by witnesses and counterexamples -/

/-- A color with the given RGB bytes, alpha 255, not yet converted. -/
def exColor (r g b : Nat) : Color :=
  { rgb := { r := r, g := g, b := b, a := 255 }, convertedMode := none }

/-- The all-invalid input table (what a zero-initialized `palette_t` holds). -/
def exEntriesEmpty : Nat → PaletteEntry := fun _ => defaultEntry

/-- A loader that decodes every path to a single (7,7,7) pixel. -/
def exLoaderOnePixel : Loader := fun _ => some [{ r := 7, g := 7, b := 7, a := 255 }]

/-- A loader that decodes every path to a single (5,5,5) pixel. -/
def exLoaderGray5 : Loader := fun _ => some [{ r := 5, g := 5, b := 5, a := 255 }]

/-- A loader that fails on every path. -/
def exLoaderFail : Loader := fun _ => none

/-- A quantizer oracle returning the empty palette. -/
def exQuantEmpty : QuantFn := fun _ _ _ _ => .ok []

/-- A quantizer oracle returning the single color (9,9,9). -/
def exQuantOne : QuantFn := fun _ _ _ _ => .ok [{ r := 9, g := 9, b := 9, a := 0 }]

/-- A quantizer oracle returning the colors (1,1,1) and (2,2,2). -/
def exQuantTwo : QuantFn :=
  fun _ _ _ _ => .ok [{ r := 1, g := 1, b := 1, a := 7 }, { r := 2, g := 2, b := 2, a := 7 }]

/-- A generic palette builder for the examples. -/
def exPal (name : String) (maxE : Nat) (fixed : List PaletteEntry)
    (imgs : List String) (mode : ColorMode) : Palette :=
  { maxEntries := maxE, numEntries := 0, fixedEntries := fixed,
    entries := exEntriesEmpty, mode := mode, quantizeSpeed := 4,
    automatic := false, name := name, images := imgs }

/-- C10's failing input: quantization capacity 1 (so no image is ever
processed and `needquantize` stays false), one exact and one non-exact
fixed entry. -/
def c10Pal : Palette :=
  exPal "pal" 2
    [{ color := exColor 5 5 5, index := 0, exact := true, valid := false },
     { color := exColor 6 6 6, index := 1, exact := false, valid := false }]
    ["img"] 0

/-- A quantizer oracle returning 255 distinct colors (the in-contract
maximum for a 256-entry palette with one exact fixed entry); color number 10
is (2,2,2). -/
def c6QuantColors : List Rgba :=
  (List.range 255).map fun i =>
    if i = 10 then { r := 2, g := 2, b := 2, a := 0 } else { r := i, g := 100, b := 100, a := 0 }

/-- The quantizer oracle wrapping `c6QuantColors`. -/
def exQuant255 : QuantFn := fun _ _ _ _ => .ok c6QuantColors

/-- C6's overflow input: one exact entry pinned at an occupied slot and two
non-exact entries whose swaps leave every one of the 256 slots valid, so the
relocation scan for the exact entry runs off the table. -/
def c6OverPal : Palette :=
  exPal "pal" 256
    [{ color := exColor 5 5 5, index := 3, exact := true, valid := false },
     { color := exColor 2 2 2, index := 255, exact := false, valid := false },
     { color := exColor 0 0 0, index := 20, exact := false, valid := false }]
    ["img"] 0

/-! ### General helper lemmas -/

theorem foldl_rec_mem {α β : Type} (f : β → α → β) (P : β → Prop) :
    ∀ (l : List α) (b : β), P b → (∀ b a, a ∈ l → P b → P (f b a)) → P (l.foldl f b) := by
  intro l
  induction l with
  | nil => intro b hb _; exact hb
  | cons a l ih =>
    intro b hb hf
    exact ih (f b a) (hf b a (List.mem_cons_self a l) hb)
      (fun b' a' ha' hb' => hf b' a' (List.mem_cons_of_mem a ha') hb')

/-- `palette_automatic_build` only appends image paths: every other palette
field is preserved. -/
theorem automatic_build_preserves (p : Palette) (converts : List Convert) :
    (palette_automatic_build p converts).entries = p.entries ∧
    (palette_automatic_build p converts).numEntries = p.numEntries ∧
    (palette_automatic_build p converts).fixedEntries = p.fixedEntries ∧
    (palette_automatic_build p converts).maxEntries = p.maxEntries ∧
    (palette_automatic_build p converts).name = p.name ∧
    (palette_automatic_build p converts).mode = p.mode := by
  unfold palette_automatic_build
  refine foldl_rec_mem _
    (fun q => q.entries = p.entries ∧ q.numEntries = p.numEntries ∧
      q.fixedEntries = p.fixedEntries ∧ q.maxEntries = p.maxEntries ∧
      q.name = p.name ∧ q.mode = p.mode) converts p ⟨rfl, rfl, rfl, rfl, rfl, rfl⟩ ?_
  intro b a _ hb
  obtain ⟨h1, h2, h3, h4, h5, h6⟩ := hb
  by_cases h : b.name = a.paletteName
  · rw [if_pos h]; exact ⟨h1, h2, h3, h4, h5, h6⟩
  · rw [if_neg h]; exact ⟨h1, h2, h3, h4, h5, h6⟩

/-- The automatic-collection step touches only the image list, whatever the
`automatic` flag is. -/
theorem generateP1_preserves (p : Palette) (converts : List Convert) :
    (generateP1 p converts).entries = p.entries ∧
    (generateP1 p converts).numEntries = p.numEntries ∧
    (generateP1 p converts).fixedEntries = p.fixedEntries ∧
    (generateP1 p converts).maxEntries = p.maxEntries ∧
    (generateP1 p converts).name = p.name ∧
    (generateP1 p converts).mode = p.mode := by
  unfold generateP1
  by_cases ha : p.automatic
  · rw [if_pos ha]; exact automatic_build_preserves p converts
  · rw [if_neg ha]; exact ⟨rfl, rfl, rfl, rfl, rfl, rfl⟩

/-- When `automatic` is off, the collection step is the identity. -/
theorem generateP1_of_not_automatic (p : Palette) (converts : List Convert)
    (ha : p.automatic = false) : generateP1 p converts = p := by
  unfold generateP1
  rw [ha]
  rfl

/-! ### Lemmas about the no-images placement loop -/

theorem directPlace_cons (fe : PaletteEntry) (l : List PaletteEntry) (s : TableState) :
    directPlace (fe :: l) s =
      directPlace l { entries := Function.update s.entries fe.index fe,
                      maxIndex := max s.maxIndex (fe.index : Int) } := rfl

theorem directPlace_entries_not_mem :
    ∀ (l : List PaletteEntry) (s : TableState) (k : Nat),
      (∀ fe ∈ l, fe.index ≠ k) → (directPlace l s).entries k = s.entries k := by
  intro l
  induction l with
  | nil => intro s k _; rfl
  | cons fe rest ih =>
    intro s k h
    rw [directPlace_cons]
    rw [ih _ k (fun g hg => h g (List.mem_cons_of_mem fe hg))]
    exact Function.update_noteq (fun hk => h fe (List.mem_cons_self fe rest) hk.symm) fe s.entries

theorem directPlace_entries_mem :
    ∀ (l : List PaletteEntry) (s : TableState) (fe : PaletteEntry),
      fe ∈ l → (∀ g ∈ l, g.index = fe.index → g = fe) →
      (directPlace l s).entries fe.index = fe := by
  intro l
  induction l with
  | nil => intro s fe h; cases h
  | cons g rest ih =>
    intro s fe hmem huniq
    rw [directPlace_cons]
    by_cases hfe : fe ∈ rest
    · exact ih _ fe hfe (fun g' hg' => huniq g' (List.mem_cons_of_mem g hg'))
    · have hg : g = fe := by
        cases hmem with
        | head => rfl
        | tail _ h => exact absurd h hfe
      subst hg
      rw [directPlace_entries_not_mem rest _ _ ?hne]
      · exact Function.update_same g.index g s.entries
      · intro h' hh' hidx
        exact hfe ((huniq h' (List.mem_cons_of_mem g hh') hidx) ▸ hh')

theorem directPlace_maxIndex_le :
    ∀ (l : List PaletteEntry) (s : TableState),
      s.maxIndex ≤ (directPlace l s).maxIndex := by
  intro l
  induction l with
  | nil => intro s; exact le_refl _
  | cons g rest ih =>
    intro s
    rw [directPlace_cons]
    exact le_trans (le_max_left _ _) (ih _)

theorem directPlace_maxIndex_mem :
    ∀ (l : List PaletteEntry) (s : TableState) (fe : PaletteEntry), fe ∈ l →
      (fe.index : Int) ≤ (directPlace l s).maxIndex := by
  intro l
  induction l with
  | nil => intro s fe h; cases h
  | cons g rest ih =>
    intro s fe hmem
    rw [directPlace_cons]
    cases hmem with
    | head => exact le_trans (le_max_right _ _) (directPlace_maxIndex_le rest _)
    | tail _ h => exact ih _ fe h

theorem directPlace_maxIndex_cases :
    ∀ (l : List PaletteEntry) (s : TableState),
      (directPlace l s).maxIndex = s.maxIndex ∨
        ∃ fe ∈ l, (directPlace l s).maxIndex = (fe.index : Int) := by
  intro l
  induction l with
  | nil => intro s; exact Or.inl rfl
  | cons g rest ih =>
    intro s
    rw [directPlace_cons]
    rcases ih { entries := Function.update s.entries g.index g,
                maxIndex := max s.maxIndex (g.index : Int) } with h | ⟨fe, hfe, h⟩
    · rcases max_choice s.maxIndex (g.index : Int) with hm | hm
      · exact Or.inl (h.trans hm)
      · exact Or.inr ⟨g, List.mem_cons_self g rest, h.trans hm⟩
    · exact Or.inr ⟨fe, List.mem_cons_of_mem g hfe, h⟩

/-! ### Lemmas about the image loop and branch selection -/

/-- With a non-builtin name, `automatic` off, a passing capacity guard and a
nonempty image list, `palette_generate` is the image pipeline. -/
theorem generate_images_branch (quant : QuantFn) (loader : Loader) (p : Palette)
    (converts : List Convert)
    (hx : p.name ≠ "xlibc") (hr : p.name ≠ "rgb332") (hauto : p.automatic = false)
    (hguard : p.fixedEntries.length ≤ p.maxEntries) (himg : p.images ≠ []) :
    palette_generate quant loader p converts =
      palette_generate_with_images quant loader p := by
  unfold palette_generate
  rw [if_neg hx, if_neg hr]
  simp only [generateP1_of_not_automatic p converts hauto]
  rw [if_neg (by omega : ¬ p.maxEntries < p.fixedEntries.length)]
  rw [if_pos (List.length_pos.mpr himg)]

/-- The image loop stops at the first image whose load fails. -/
theorem processImages_fail_first (loader : Loader) (fixedEntries : List PaletteEntry)
    (mode : ColorMode) :
    ∀ (pre : List String) (bad : String) (post : List String),
      (∀ q ∈ pre, loader q ≠ none) → loader bad = none →
      processImages loader fixedEntries mode (pre ++ bad :: post) = none := by
  intro pre
  induction pre with
  | nil =>
    intro bad post _ hbad
    simp only [List.nil_append, processImages]
    rw [hbad]
  | cons q rest ih =>
    intro bad post hpre hbad
    rcases hq : loader q with _ | px
    · exact absurd hq (hpre q (List.mem_cons_self q rest))
    · simp only [List.cons_append, processImages, List.append_eq, hq]
      rw [ih bad post (fun r hr => hpre r (List.mem_cons_of_mem q hr)) hbad]

/-! ### Lemmas about the builtin path -/

theorem builtinStoreFrom_apply (builtin : List Nat) (mode : ColorMode) :
    ∀ (n i : Nat) (ents : Nat → PaletteEntry) (k : Nat),
      builtinStoreFrom builtin mode i n ents k =
        if i ≤ k ∧ k < i + n then { ents k with color := builtinColor builtin mode k }
        else ents k := by
  intro n
  induction n with
  | zero =>
    intro i ents k
    rw [builtinStoreFrom, if_neg (by omega : ¬(i ≤ k ∧ k < i + 0))]
  | succ n ih =>
    intro i ents k
    rw [builtinStoreFrom, ih (i + 1) _ k]
    by_cases hk : i + 1 ≤ k ∧ k < i + 1 + n
    · rw [if_pos hk, if_pos (by omega : i ≤ k ∧ k < i + (n + 1))]
      rw [Function.update_noteq (by omega : k ≠ i)]
    · rw [if_neg hk]
      by_cases hki : k = i
      · subst hki
        rw [Function.update_same, if_pos (by omega : k ≤ k ∧ k < k + (n + 1))]
      · rw [Function.update_noteq hki, if_neg (by omega : ¬(i ≤ k ∧ k < i + (n + 1)))]

/-! ### Lemmas about pixel filtering and the quantizer histogram -/

theorem mem_filterImagePixels (fixedEntries : List PaletteEntry) (mode : ColorMode)
    (pixels : List Rgba) (c : Color) (hc : c ∈ filterImagePixels fixedEntries mode pixels) :
    ∃ q ∈ pixels, matchesExactFixed fixedEntries q = false ∧
      c = color_convert { rgb := q, convertedMode := none } mode := by
  unfold filterImagePixels at hc
  rcases List.mem_filterMap.mp hc with ⟨q, hq, hsome⟩
  by_cases hm : matchesExactFixed fixedEntries q
  · rw [if_pos hm] at hsome; cases hsome
  · rw [if_neg hm] at hsome
    exact ⟨q, hq, Bool.eq_false_iff.mpr hm, (Option.some.inj hsome).symm⟩

theorem matchesExactFixed_false_spec (fixedEntries : List PaletteEntry) (q : Rgba)
    (h : matchesExactFixed fixedEntries q = false) :
    ∀ g ∈ fixedEntries, g.exact = true →
      ¬(q.r = g.color.rgb.r ∧ q.g = g.color.rgb.g ∧ q.b = g.color.rgb.b) := by
  intro g hg hex ⟨h1, h2, h3⟩
  unfold matchesExactFixed at h
  rw [List.any_eq_false] at h
  have := h g hg
  rw [hex, h1, h2, h3] at this
  simp at this

/-- Every row accepted into the histogram is the filtered pixel list of some
loaded image. -/
theorem processImages_rows_are_filtered (loader : Loader)
    (fixedEntries : List PaletteEntry) (mode : ColorMode) :
    ∀ (imgs : List String) (rows : List (List Color)),
      processImages loader fixedEntries mode imgs = some rows →
      ∀ row ∈ rows, ∃ px, row = filterImagePixels fixedEntries mode px := by
  intro imgs
  induction imgs with
  | nil =>
    intro rows h row hrow
    unfold processImages at h
    cases Option.some.inj h
    cases hrow
  | cons img rest ih =>
    intro rows h row hrow
    unfold processImages at h
    cases hld : loader img with
    | none => rw [hld] at h; cases h
    | some px =>
      rw [hld] at h
      cases hrest : processImages loader fixedEntries mode rest with
      | none => rw [hrest] at h; cases h
      | some rows' =>
        rw [hrest] at h
        cases Option.some.inj h
        by_cases he : (filterImagePixels fixedEntries mode px).isEmpty
        · rw [if_pos he] at hrow
          exact ih rows' hrest row hrow
        · rw [if_neg he] at hrow
          cases hrow with
          | head => exact ⟨px, rfl⟩
          | tail _ hr => exact ih rows' hrest row hr

/-- If every loaded image filters to no pixels, the histogram gets no rows. -/
theorem processImages_empty_rows (loader : Loader)
    (fixedEntries : List PaletteEntry) (mode : ColorMode) :
    ∀ (imgs : List String) (rows : List (List Color)),
      (∀ img ∈ imgs, ∀ px, loader img = some px →
        filterImagePixels fixedEntries mode px = []) →
      processImages loader fixedEntries mode imgs = some rows → rows = [] := by
  intro imgs
  induction imgs with
  | nil =>
    intro rows _ h
    exact (Option.some.inj h).symm
  | cons img rest ih =>
    intro rows H h
    unfold processImages at h
    cases hld : loader img with
    | none => rw [hld] at h; cases h
    | some px =>
      rw [hld] at h
      cases hrest : processImages loader fixedEntries mode rest with
      | none => rw [hrest] at h; cases h
      | some rows' =>
        rw [hrest] at h
        cases Option.some.inj h
        have h1 : rows' = [] := ih rows' (fun i hi => H i (List.mem_cons_of_mem img hi)) hrest
        rw [H img (List.mem_cons_self img rest) px hld, h1]
        rfl

/-- On the NULL `liqpalette` the resolution loop can only succeed by never
entering its body: the state is unchanged and every fixed entry is exact. -/
theorem resolveNonExactAll_none_ok :
    ∀ (l : List PaletteEntry) (s s' : TableState),
      resolveNonExactAll none l s = .ok s' → s' = s ∧ ∀ fe ∈ l, fe.exact = true := by
  intro l
  induction l with
  | nil =>
    intro s s' h
    refine ⟨(Except.ok.inj h).symm, fun fe hfe => absurd hfe (List.not_mem_nil fe)⟩
  | cons fe rest ih =>
    intro s s' h
    unfold resolveNonExactAll at h
    by_cases hex : fe.exact
    · rw [if_pos hex] at h
      rcases ih s s' h with ⟨h1, h2⟩
      refine ⟨h1, fun g hg => ?_⟩
      cases hg with
      | head => exact hex
      | tail _ hr => exact h2 g hr
    · rw [if_neg hex] at h
      cases h

/-- Each fixed entry after the seeding pass keeps the exact flag, index and
(for exact entries) the color of an original fixed entry. -/
theorem mem_wiFixed1 (p : Palette) (fe : PaletteEntry) (hfe : fe ∈ wiFixed1 p)
    (hex : fe.exact = true) : fe ∈ p.fixedEntries := by
  unfold wiFixed1 at hfe
  rcases List.mem_map.mp hfe with ⟨e, he, heq⟩
  by_cases hee : e.exact
  · rw [if_pos hee] at heq
    exact heq ▸ he
  · rw [if_neg hee] at heq
    rw [← heq] at hex
    exact absurd hex (by simpa using hee)

/-- `placeExactStep` only writes the relocated occupant and the converted
exact color, so a table whose valid entries all carry mode-converted exact
fixed colors keeps that shape. -/
theorem placeExactStep_only_fixed (mode : ColorMode) (source : List PaletteEntry)
    (s : TableState) (fe : PaletteEntry)
    (hfe : fe.exact = true → ∃ g ∈ source, g.exact = true ∧ fe.color = g.color)
    (hs : ∀ k, (s.entries k).valid = true →
      ∃ g ∈ source, g.exact = true ∧ (s.entries k).color = color_convert g.color mode) :
    ∀ k, ((placeExactStep mode s fe).entries k).valid = true →
      ∃ g ∈ source, g.exact = true ∧
        ((placeExactStep mode s fe).entries k).color = color_convert g.color mode := by
  intro k
  unfold placeExactStep
  by_cases hex : fe.exact = true
  · rw [if_neg (by simp [hex] : ¬fe.exact = false)]
    rcases hfe hex with ⟨g, hg, hgex, hgc⟩
    by_cases hocc : (s.entries fe.index).valid = true
    · rw [if_pos hocc]
      intro hv
      dsimp only at hv ⊢
      by_cases hk1 : k = fe.index
      · subst hk1
        refine ⟨g, hg, hgex, ?_⟩
        rw [Function.update_same]
        show color_convert fe.color mode = _
        rw [hgc]
      · rw [Function.update_noteq hk1] at hv ⊢
        by_cases hk2 : k = firstFreeIndex s.entries
        · subst hk2
          rw [Function.update_same] at hv ⊢
          exact hs fe.index hv
        · rw [Function.update_noteq hk2] at hv ⊢
          exact hs k hv
    · rw [if_neg hocc]
      intro hv
      dsimp only at hv ⊢
      by_cases hk1 : k = fe.index
      · subst hk1
        refine ⟨g, hg, hgex, ?_⟩
        rw [Function.update_same]
        show color_convert fe.color mode = _
        rw [hgc]
      · rw [Function.update_noteq hk1] at hv ⊢
        exact hs k hv
  · rw [if_pos (Bool.eq_false_iff.mpr hex)]
    exact hs k

/-- Fold of `placeExactStep_only_fixed` over the exact loop. -/
theorem placeExactAll_only_fixed (mode : ColorMode) (source : List PaletteEntry) :
    ∀ (l : List PaletteEntry) (s : TableState),
      (∀ fe ∈ l, fe.exact = true → ∃ g ∈ source, g.exact = true ∧ fe.color = g.color) →
      (∀ k, (s.entries k).valid = true →
        ∃ g ∈ source, g.exact = true ∧ (s.entries k).color = color_convert g.color mode) →
      ∀ k, ((placeExactAll mode l s).entries k).valid = true →
        ∃ g ∈ source, g.exact = true ∧
          ((placeExactAll mode l s).entries k).color = color_convert g.color mode := by
  intro l
  induction l with
  | nil => intro s _ hs k; exact hs k
  | cons fe rest ih =>
    intro s hl hs
    show ∀ k, ((placeExactAll mode rest (placeExactStep mode s fe)).entries k).valid = true → _
    exact ih (placeExactStep mode s fe)
      (fun g hg => hl g (List.mem_cons_of_mem fe hg))
      (placeExactStep_only_fixed mode source s fe (hl fe (List.mem_cons_self fe rest)) hs)

/-- An exact fixed entry passes the seeding loop untouched. -/
theorem exact_mem_wiFixed1 (p : Palette) (g : PaletteEntry)
    (hg : g ∈ p.fixedEntries) (hgex : g.exact = true) : g ∈ wiFixed1 p := by
  unfold wiFixed1
  exact List.mem_map.mpr ⟨g, hg, by rw [if_pos hgex]⟩

/-- `wiFixed1` only reads the fixed entries and the mode. -/
theorem wiFixed1_eq_of (q p : Palette) (hf : q.fixedEntries = p.fixedEntries)
    (hm : q.mode = p.mode) : wiFixed1 q = wiFixed1 p := by
  unfold wiFixed1
  rw [hf, hm]

/-- Every row of a computed `wiRows?` is a filtered pixel list. -/
theorem wiRows?_some_spec (loader : Loader) (p : Palette)
    (rows : List (List Color)) (h : wiRows? loader p = some rows) :
    ∀ row ∈ rows, ∃ px, row = filterImagePixels (wiFixed1 p) p.mode px := by
  unfold wiRows? at h
  by_cases hc : 1 < wiQuantMax p
  · rw [if_pos hc] at h
    exact processImages_rows_are_filtered loader (wiFixed1 p) p.mode p.images rows h
  · rw [if_neg hc] at h
    cases Option.some.inj h
    intro row hrow
    cases hrow

/-- The builtin conversion never touches the valid flags. -/
theorem builtinStore_valid (builtin : List Nat) (mode : ColorMode) (n : Nat)
    (ents : Nat → PaletteEntry) (k : Nat) :
    (builtinStore builtin mode n ents k).valid = (ents k).valid := by
  unfold builtinStore
  rw [builtinStoreFrom_apply]
  by_cases hk : 0 ≤ k ∧ k < 0 + n
  · rw [if_pos hk]
  · rw [if_neg hk]

/-- Any row submitted to the histogram by the image pipeline comes from the
computed image loop result. -/
theorem with_images_submitted (quant : QuantFn) (loader : Loader) (p : Palette) :
    ∀ row ∈ (palette_generate_with_images quant loader p).submitted,
      ∃ rows, wiRows? loader p = some rows ∧ row ∈ rows := by
  unfold palette_generate_with_images
  cases hrows : wiRows? loader p with
  | none =>
    dsimp only
    intro row hrow
    exact absurd (show row ∈ ([] : List (List Color)) from hrow) (List.not_mem_nil row)
  | some rows =>
    dsimp only
    cases hq : wiQuantRes quant p rows with
    | error e =>
      dsimp only
      intro row hrow
      exact ⟨rows, rfl, show row ∈ rows from hrow⟩
    | ok lq =>
      dsimp only
      cases hres : resolveNonExactAll lq (wiFixed1 p) (wiStart p lq) with
      | error e =>
        dsimp only
        intro row hrow
        exact ⟨rows, rfl, show row ∈ rows from hrow⟩
      | ok s2 =>
        dsimp only
        intro row hrow
        exact ⟨rows, rfl, show row ∈ rows from hrow⟩

/-- Any row submitted to the histogram by `palette_generate` comes from the
image loop over the post-collection palette. -/
theorem generate_submitted (quant : QuantFn) (loader : Loader) (p : Palette)
    (converts : List Convert) :
    ∀ row ∈ (palette_generate quant loader p converts).submitted,
      ∃ rows, wiRows? loader (generateP1 p converts) = some rows ∧ row ∈ rows := by
  unfold palette_generate
  by_cases hx : p.name = "xlibc"
  · rw [if_pos hx]; intro row hrow; exact absurd hrow (List.not_mem_nil row)
  rw [if_neg hx]
  by_cases hr : p.name = "rgb332"
  · rw [if_pos hr]; intro row hrow; exact absurd hrow (List.not_mem_nil row)
  rw [if_neg hr]
  by_cases hg : (generateP1 p converts).maxEntries < (generateP1 p converts).fixedEntries.length
  · rw [if_pos hg]; intro row hrow; exact absurd hrow (List.not_mem_nil row)
  rw [if_neg hg]
  by_cases hi : 0 < (generateP1 p converts).images.length
  · rw [if_pos hi]; exact with_images_submitted quant loader _
  · rw [if_neg hi]
    by_cases hfz : (generateP1 p converts).fixedEntries.length = 0
    · rw [if_pos hfz]; intro row hrow; exact absurd hrow (List.not_mem_nil row)
    · rw [if_neg hfz]; intro row hrow; exact absurd hrow (List.not_mem_nil row)

/-- When every loaded image filters to nothing, the image pipeline skips
quantization and, on success, produces a table holding only mode-converted
exact fixed colors. -/
theorem with_images_no_quantize (quant : QuantFn) (loader : Loader) (p : Palette)
    (h0 : ∀ k, (p.entries k).valid = false)
    (H : ∀ img ∈ p.images, ∀ px, loader img = some px →
      filterImagePixels (wiFixed1 p) p.mode px = []) :
    (palette_generate_with_images quant loader p).needQuantize = false ∧
    (palette_generate_with_images quant loader p).quantInvoked = false ∧
    ((palette_generate_with_images quant loader p).err = none →
      ∀ k, ((palette_generate_with_images quant loader p).palette.entries k).valid = true →
        ∃ g ∈ p.fixedEntries, g.exact = true ∧
          ((palette_generate_with_images quant loader p).palette.entries k).color =
            color_convert g.color p.mode) := by
  have hrows0 : ∀ rows, wiRows? loader p = some rows → rows = [] := by
    intro rows h
    unfold wiRows? at h
    by_cases hc : 1 < wiQuantMax p
    · rw [if_pos hc] at h
      exact processImages_empty_rows loader (wiFixed1 p) p.mode p.images rows H h
    · rw [if_neg hc] at h
      exact (Option.some.inj h).symm
  unfold palette_generate_with_images
  cases hrows : wiRows? loader p with
  | none =>
    dsimp only
    exact ⟨rfl, rfl, fun he =>
      Option.noConfusion (show some GenError.imageLoadFailure = none from he)⟩
  | some rows =>
    have hre : rows = [] := hrows0 rows hrows
    subst hre
    dsimp only
    rw [show wiQuantRes quant p [] = .ok none from rfl]
    dsimp only
    cases hres : resolveNonExactAll none (wiFixed1 p) (wiStart p none) with
    | error e =>
      dsimp only
      exact ⟨rfl, rfl, fun he => Option.noConfusion (show some e = none from he)⟩
    | ok s2 =>
      dsimp only
      rcases resolveNonExactAll_none_ok (wiFixed1 p) _ s2 hres with ⟨hs2, _⟩
      subst hs2
      refine ⟨rfl, rfl, fun _ k => ?_⟩
      show ((placeExactAll p.mode (wiFixed1 p) (wiStart p none)).entries k).valid = true → _
      intro hv
      exact placeExactAll_only_fixed p.mode p.fixedEntries (wiFixed1 p) (wiStart p none)
        (fun fe hfe hex => ⟨fe, mem_wiFixed1 p fe hfe hex, hex, rfl⟩)
        (fun k' hk' => by
          have h2 : (p.entries k').valid = true := hk'
          rw [h0 k'] at h2
          exact absurd h2 Bool.false_ne_true)
        k hv

/-! ### Lemmas about the relocation scan and exact placement -/

theorem firstFreeFrom_le (e : Nat → PaletteEntry) :
    ∀ (n j : Nat), firstFreeFrom e j n ≤ j + n := by
  intro n
  induction n with
  | zero => intro j; rw [firstFreeFrom]; omega
  | succ n ih =>
    intro j
    rw [firstFreeFrom]
    by_cases hv : (e j).valid
    · rw [if_neg (by simp [hv])]
      have := ih (j + 1)
      omega
    · rw [if_pos (by simp [hv])]
      omega

theorem firstFreeFrom_not_valid (e : Nat → PaletteEntry) :
    ∀ (n j : Nat), firstFreeFrom e j n < j + n →
      (e (firstFreeFrom e j n)).valid = false := by
  intro n
  induction n with
  | zero => intro j h; rw [firstFreeFrom] at h ⊢; omega
  | succ n ih =>
    intro j h
    rw [firstFreeFrom] at h ⊢
    by_cases hv : (e j).valid
    · rw [if_neg (by simp [hv])] at h ⊢
      exact ih (j + 1) (by omega)
    · rw [if_pos (by simp [hv])]
      exact Bool.eq_false_iff.mpr hv

/-- Every slot strictly before the scan's result is valid (the scan is the
first-free search of lines 481-487). -/
theorem firstFreeFrom_min (e : Nat → PaletteEntry) :
    ∀ (n j i : Nat), j ≤ i → i < firstFreeFrom e j n → (e i).valid = true := by
  intro n
  induction n with
  | zero => intro j i h1 h2; rw [firstFreeFrom] at h2; omega
  | succ n ih =>
    intro j i h1 h2
    rw [firstFreeFrom] at h2
    by_cases hv : (e j).valid
    · rw [if_neg (by simp [hv])] at h2
      by_cases hij : i = j
      · rw [hij]; exact hv
      · exact ih (j + 1) i (by omega) h2
    · rw [if_pos (by simp [hv])] at h2
      omega

theorem firstFreeIndex_spec (e : Nat → PaletteEntry) :
    firstFreeIndex e = PALETTE_MAX_ENTRIES ∨
      (firstFreeIndex e < PALETTE_MAX_ENTRIES ∧ (e (firstFreeIndex e)).valid = false) := by
  unfold firstFreeIndex
  have h1 := firstFreeFrom_le e PALETTE_MAX_ENTRIES 0
  by_cases h : firstFreeFrom e 0 PALETTE_MAX_ENTRIES < PALETTE_MAX_ENTRIES
  · exact Or.inr ⟨h, firstFreeFrom_not_valid e PALETTE_MAX_ENTRIES 0 (by omega)⟩
  · exact Or.inl (by omega)

/-- An exact step never overwrites a valid slot that it is not pinning: the
relocation target is free (or the out-of-table slot 256) and the pinned
write lands at the step's own index. -/
theorem placeExactStep_preserves_valid (mode : ColorMode) (s : TableState)
    (g : PaletteEntry) (k : Nat)
    (hk : (s.entries k).valid = true) (hk256 : k < PALETTE_MAX_ENTRIES)
    (hne : g.exact = true → g.index ≠ k) :
    (placeExactStep mode s g).entries k = s.entries k := by
  unfold placeExactStep
  by_cases hex : g.exact = true
  · rw [if_neg (by simp [hex])]
    have hidx : k ≠ g.index := fun h => hne hex h.symm
    have hfree : k ≠ firstFreeIndex s.entries := by
      rcases firstFreeIndex_spec s.entries with h | ⟨_, h⟩
      · omega
      · intro hkf
        rw [← hkf] at h
        rw [hk] at h
        cases h
    by_cases hocc : (s.entries g.index).valid = true
    · rw [if_pos hocc]
      dsimp only
      rw [Function.update_noteq hidx, Function.update_noteq hfree]
    · rw [if_neg hocc]
      dsimp only
      rw [Function.update_noteq hidx]
  · rw [if_pos (Bool.eq_false_iff.mpr hex)]

theorem placeExactStep_places (mode : ColorMode) (s : TableState) (fe : PaletteEntry)
    (hex : fe.exact = true) :
    (placeExactStep mode s fe).entries fe.index =
      { fe with color := color_convert fe.color mode, valid := true } := by
  unfold placeExactStep
  rw [if_neg (by simp [hex])]
  by_cases hocc : (s.entries fe.index).valid = true
  · rw [if_pos hocc]
    dsimp only
    rw [Function.update_same]
  · rw [if_neg hocc]
    dsimp only
    rw [Function.update_same]

theorem placeExactAll_preserves_valid (mode : ColorMode) :
    ∀ (l : List PaletteEntry) (s : TableState) (k : Nat),
      (s.entries k).valid = true → k < PALETTE_MAX_ENTRIES →
      (∀ g ∈ l, g.exact = true → g.index ≠ k) →
      (placeExactAll mode l s).entries k = s.entries k := by
  intro l
  induction l with
  | nil => intro s k _ _ _; rfl
  | cons g rest ih =>
    intro s k hk hk256 hl
    show (placeExactAll mode rest (placeExactStep mode s g)).entries k = s.entries k
    have hstep := placeExactStep_preserves_valid mode s g k hk hk256
      (hl g (List.mem_cons_self g rest))
    rw [ih (placeExactStep mode s g) k (by rw [hstep]; exact hk) hk256
      (fun h hh => hl h (List.mem_cons_of_mem g hh))]
    exact hstep

/-- Each exact fixed entry with a distinct pinned index below the table size
ends up, converted and valid, at its pinned index after the exact loop. -/
theorem placeExactAll_mem (mode : ColorMode) :
    ∀ (l : List PaletteEntry) (s : TableState) (fe : PaletteEntry),
      fe ∈ l → fe.exact = true → fe.index < PALETTE_MAX_ENTRIES →
      (∀ g ∈ l, g.exact = true → g ≠ fe → g.index ≠ fe.index) →
      (placeExactAll mode l s).entries fe.index =
        { fe with color := color_convert fe.color mode, valid := true } := by
  intro l
  induction l with
  | nil => intro s fe h; cases h
  | cons g rest ih =>
    intro s fe hmem hex hidx huniq
    show (placeExactAll mode rest (placeExactStep mode s g)).entries fe.index = _
    by_cases hfe : fe ∈ rest
    · exact ih (placeExactStep mode s g) fe hfe hex hidx
        (fun h hh => huniq h (List.mem_cons_of_mem g hh))
    · have hg : g = fe := by
        cases hmem with
        | head => rfl
        | tail _ h => exact absurd h hfe
      subst hg
      have hplaced := placeExactStep_places mode s g hex
      rw [placeExactAll_preserves_valid mode rest (placeExactStep mode s g) g.index
        (by rw [hplaced]) hidx ?hrest]
      · exact hplaced
      case hrest =>
        intro h hh hhex
        have hne : h ≠ g := fun he => hfe (he ▸ hh)
        exact huniq h (List.mem_cons_of_mem g hh) hhex hne

/-- On a successful run the image pipeline's final table is the exact loop
applied to the state left by the non-exact resolution. -/
theorem with_images_ok_entries (quant : QuantFn) (loader : Loader) (p : Palette)
    (hok : (palette_generate_with_images quant loader p).err = none) :
    ∃ s2, (palette_generate_with_images quant loader p).palette.entries =
      (placeExactAll p.mode (wiFixed1 p) s2).entries := by
  unfold palette_generate_with_images at hok ⊢
  cases hrows : wiRows? loader p with
  | none =>
    rw [hrows] at hok
    dsimp only at hok
    exact absurd hok (fun h =>
      Option.noConfusion (show some GenError.imageLoadFailure = none from h))
  | some rows =>
    rw [hrows] at hok
    dsimp only at hok ⊢
    cases hq : wiQuantRes quant p rows with
    | error e =>
      rw [hq] at hok
      dsimp only at hok
      exact absurd hok (fun h =>
        Option.noConfusion (show some GenError.quantizeFailure = none from h))
    | ok lq =>
      rw [hq] at hok
      dsimp only at hok ⊢
      cases hres : resolveNonExactAll lq (wiFixed1 p) (wiStart p lq) with
      | error e =>
        rw [hres] at hok
        dsimp only at hok
        exact absurd hok (fun h => Option.noConfusion (show some e = none from h))
      | ok s2 =>
        dsimp only
        exact ⟨s2, rfl⟩

/-! ### Characterization of the quantized-store loop and the window search -/

theorem storeQuantizedFrom_entries (mode : ColorMode) :
    ∀ (qs : List Rgba) (i : Nat) (s : TableState) (k : Nat),
      (storeQuantizedFrom mode i qs s).entries k =
        if i ≤ k ∧ k < i + qs.length then
          { s.entries k with
              color := quantStoredColor mode (qs.getD (k - i) { r := 0, g := 0, b := 0, a := 0 }),
              valid := true }
        else s.entries k := by
  intro qs
  induction qs with
  | nil =>
    intro i s k
    rw [storeQuantizedFrom, if_neg (by simp only [List.length_nil]; omega)]
  | cons q rest ih =>
    intro i s k
    rw [storeQuantizedFrom, ih (i + 1) _ k]
    by_cases hk : i + 1 ≤ k ∧ k < i + 1 + rest.length
    · rw [if_pos hk, if_pos (by simp only [List.length_cons]; omega)]
      dsimp only
      rw [Function.update_noteq (by omega : k ≠ i)]
      have hsub : k - i = (k - (i + 1)) + 1 := by omega
      rw [hsub, List.getD_cons_succ]
    · rw [if_neg hk]
      dsimp only
      by_cases hki : k = i
      · subst hki
        rw [Function.update_same, if_pos (by simp only [List.length_cons]; omega)]
        rw [Nat.sub_self, List.getD_cons_zero]
      · rw [Function.update_noteq hki,
          if_neg (by simp only [List.length_cons]; omega)]

theorem storeQuantizedFrom_maxIndex (mode : ColorMode) :
    ∀ (qs : List Rgba) (i : Nat) (s : TableState),
      (storeQuantizedFrom mode i qs s).maxIndex =
        if qs.length = 0 then s.maxIndex
        else max s.maxIndex ((i : Int) + (qs.length : Int) - 1) := by
  intro qs
  induction qs with
  | nil => intro i s; rfl
  | cons q rest ih =>
    intro i s
    rw [storeQuantizedFrom, ih (i + 1) _]
    rw [if_neg (by simp : ¬(q :: rest).length = 0)]
    by_cases hrl : rest.length = 0
    · rw [if_pos hrl]
      show max s.maxIndex (i : Int) =
        max s.maxIndex ((i : Int) + ((q :: rest).length : Int) - 1)
      have h2 : (i : Int) + ((q :: rest).length : Int) - 1 = (i : Int) := by
        simp only [List.length_cons, hrl]
        push_cast
        ring
      rw [h2]
    · rw [if_neg hrl]
      show max (max s.maxIndex (i : Int)) (((i + 1 : Nat) : Int) + (rest.length : Int) - 1) =
        max s.maxIndex ((i : Int) + ((q :: rest).length : Int) - 1)
      have h1 : ((i + 1 : Nat) : Int) + (rest.length : Int) - 1 =
          (i : Int) + (rest.length : Int) := by push_cast; ring
      have h2 : (i : Int) + ((q :: rest).length : Int) - 1 =
          (i : Int) + (rest.length : Int) := by
        simp only [List.length_cons]
        push_cast
        ring
      rw [h1, h2, max_assoc]
      congr 1
      exact max_eq_right (by omega)

theorem findMatchFrom_some_spec (e : Nat → PaletteEntry) (fe : PaletteEntry) :
    ∀ (n j0 j : Nat), findMatchFrom e fe j0 n = some j →
      j0 ≤ j ∧ j < j0 + n ∧ rgbEq (e j).color fe.color = true := by
  intro n
  induction n with
  | zero => intro j0 j h; cases h
  | succ n ih =>
    intro j0 j h
    rw [findMatchFrom] at h
    by_cases hm : rgbEq (e j0).color fe.color
    · rw [if_pos hm] at h
      cases Option.some.inj h
      exact ⟨le_refl j0, by omega, hm⟩
    · rw [if_neg hm] at h
      rcases ih (j0 + 1) j h with ⟨h1, h2, h3⟩
      exact ⟨by omega, by omega, h3⟩

theorem findMatchFrom_none_spec (e : Nat → PaletteEntry) (fe : PaletteEntry) :
    ∀ (n j0 : Nat), findMatchFrom e fe j0 n = none →
      ∀ i, j0 ≤ i → i < j0 + n → rgbEq (e i).color fe.color = false := by
  intro n
  induction n with
  | zero => intro j0 _ i h1 h2; omega
  | succ n ih =>
    intro j0 h i h1 h2
    rw [findMatchFrom] at h
    by_cases hm : rgbEq (e j0).color fe.color
    · rw [if_pos hm] at h; cases h
    · rw [if_neg hm] at h
      by_cases hij : i = j0
      · rw [hij]; exact Bool.eq_false_iff.mpr hm
      · exact ih (j0 + 1) h i (by omega) (by omega)

theorem findWindowMatch_lt (count : Nat) (e : Nat → PaletteEntry)
    (fe : PaletteEntry) (j : Nat) (h : findWindowMatch count e fe = some j) :
    j < count := by
  unfold findWindowMatch at h
  have := findMatchFrom_some_spec e fe count 0 j h
  omega

/-! ### The maxIndex invariant through the resolution phase -/

theorem resolveNonExactStep_invJW (count : Nat) (s : TableState) (fe : PaletteEntry)
    (hJ : InvJ s) (hW : InvW count s) :
    InvJ (resolveNonExactStep count s fe) ∧ InvW count (resolveNonExactStep count s fe) := by
  obtain ⟨hm1, hJa, hJb⟩ := hJ
  obtain ⟨hW1, hWor⟩ := hW
  unfold resolveNonExactStep
  by_cases hex : fe.exact = true
  · rw [if_pos hex]; exact ⟨⟨hm1, hJa, hJb⟩, hW1, hWor⟩
  · rw [if_neg hex]
    cases hfind : findWindowMatch count s.entries fe with
    | none => exact ⟨⟨hm1, hJa, hJb⟩, hW1, hWor⟩
    | some j =>
      have hj : j < count := findWindowMatch_lt count s.entries fe j hfind
      constructor
      · refine ⟨?_, ?_, ?_⟩
        · show -1 ≤ max s.maxIndex (fe.index : Int)
          have := le_max_left s.maxIndex (fe.index : Int)
          omega
        · intro k hk
          have hk2 : max s.maxIndex (fe.index : Int) < (k : Int) := hk
          show ((Function.update
            (Function.update s.entries j (s.entries fe.index))
            fe.index { s.entries j with valid := true }) k).valid = false
          have hmr := le_max_right s.maxIndex (fe.index : Int)
          have hml := le_max_left s.maxIndex (fe.index : Int)
          have hki : k ≠ fe.index := by intro he; subst he; omega
          have hkj : k ≠ j := by intro he; subst he; omega
          rw [Function.update_noteq hki, Function.update_noteq hkj]
          apply hJa
          omega
        · intro k hk
          have hk2 : (k : Int) = max s.maxIndex (fe.index : Int) := hk
          show ((Function.update
            (Function.update s.entries j (s.entries fe.index))
            fe.index { s.entries j with valid := true }) k).valid = true
          by_cases hcase : s.maxIndex ≤ (fe.index : Int)
          · rw [max_eq_right hcase] at hk2
            have hke : k = fe.index := by exact_mod_cast hk2
            subst hke
            rw [Function.update_same]
          · push_neg at hcase
            rw [max_eq_left (le_of_lt hcase)] at hk2
            have hki : k ≠ fe.index := by intro he; subst he; omega
            rw [Function.update_noteq hki]
            by_cases hkj : k = j
            · subst hkj
              rw [Function.update_same]
              rcases hWor with hall | hright
              · have hidxc : fe.index < count := by omega
                exact hall fe.index hidxc
              · omega
            · rw [Function.update_noteq hkj]
              exact hJb k hk2
      · constructor
        · show (count : Int) - 1 ≤ max s.maxIndex (fe.index : Int)
          have := le_max_left s.maxIndex (fe.index : Int)
          omega
        · show (∀ k, k < count → ((Function.update
            (Function.update s.entries j (s.entries fe.index))
            fe.index { s.entries j with valid := true }) k).valid = true) ∨
            (count : Int) ≤ max s.maxIndex (fe.index : Int)
          rcases hWor with hall | hright
          · by_cases hidxc : fe.index < count
            · refine Or.inl fun k hkc => ?_
              by_cases hki : k = fe.index
              · subst hki; rw [Function.update_same]
              · rw [Function.update_noteq hki]
                by_cases hkj : k = j
                · subst hkj
                  rw [Function.update_same]
                  exact hall fe.index hidxc
                · rw [Function.update_noteq hkj]
                  exact hall k hkc
            · by_cases hvidx : (s.entries fe.index).valid = true
              · refine Or.inl fun k hkc => ?_
                by_cases hki : k = fe.index
                · subst hki; rw [Function.update_same]
                · rw [Function.update_noteq hki]
                  by_cases hkj : k = j
                  · subst hkj; rw [Function.update_same]; exact hvidx
                  · rw [Function.update_noteq hkj]; exact hall k hkc
              · refine Or.inr ?_
                have h2 : count ≤ fe.index := Nat.le_of_not_lt hidxc
                have := le_max_right s.maxIndex (fe.index : Int)
                omega
          · exact Or.inr (le_trans hright (le_max_left _ _))

theorem placeExactStep_invJ (mode : ColorMode) (s : TableState) (fe : PaletteEntry)
    (hJ : InvJ s) : InvJ (placeExactStep mode s fe) := by
  obtain ⟨hm1, hJa, hJb⟩ := hJ
  unfold placeExactStep
  by_cases hex : fe.exact = false
  · rw [if_pos hex]; exact ⟨hm1, hJa, hJb⟩
  · rw [if_neg hex]
    by_cases hocc : (s.entries fe.index).valid = true
    · rw [if_pos hocc]
      refine ⟨?_, ?_, ?_⟩
      · show -1 ≤ max (max s.maxIndex (firstFreeIndex s.entries : Int)) (fe.index : Int)
        have h2 := le_max_left s.maxIndex (firstFreeIndex s.entries : Int)
        have h3 := le_max_left (max s.maxIndex (firstFreeIndex s.entries : Int)) (fe.index : Int)
        omega
      · intro k hk
        have hk2 : max (max s.maxIndex (firstFreeIndex s.entries : Int)) (fe.index : Int) <
          (k : Int) := hk
        show ((Function.update
          (Function.update s.entries (firstFreeIndex s.entries) (s.entries fe.index))
          fe.index { fe with color := color_convert fe.color mode, valid := true }) k).valid = false
        have h2 := le_max_right s.maxIndex (firstFreeIndex s.entries : Int)
        have h3 := le_max_left (max s.maxIndex (firstFreeIndex s.entries : Int)) (fe.index : Int)
        have h4 := le_max_right (max s.maxIndex (firstFreeIndex s.entries : Int)) (fe.index : Int)
        have h5 := le_max_left s.maxIndex (firstFreeIndex s.entries : Int)
        have hki : k ≠ fe.index := by intro he; subst he; omega
        have hkf : k ≠ firstFreeIndex s.entries := by intro he; subst he; omega
        rw [Function.update_noteq hki, Function.update_noteq hkf]
        apply hJa
        omega
      · intro k hk
        have hk2 : (k : Int) = max (max s.maxIndex (firstFreeIndex s.entries : Int))
          (fe.index : Int) := hk
        show ((Function.update
          (Function.update s.entries (firstFreeIndex s.entries) (s.entries fe.index))
          fe.index { fe with color := color_convert fe.color mode, valid := true }) k).valid = true
        by_cases hki : k = fe.index
        · subst hki; rw [Function.update_same]
        · rw [Function.update_noteq hki]
          by_cases hkf : k = firstFreeIndex s.entries
          · subst hkf; rw [Function.update_same]; exact hocc
          · rw [Function.update_noteq hkf]
            rcases max_cases (max s.maxIndex (firstFreeIndex s.entries : Int))
              (fe.index : Int) with ⟨he1, _⟩ | ⟨he1, _⟩
            · rw [he1] at hk2
              rcases max_cases s.maxIndex (firstFreeIndex s.entries : Int) with
                ⟨he2, _⟩ | ⟨he2, _⟩
              · rw [he2] at hk2
                exact hJb k hk2
              · rw [he2] at hk2
                exact absurd (by exact_mod_cast hk2 : k = firstFreeIndex s.entries) hkf
            · rw [he1] at hk2
              exact absurd (by exact_mod_cast hk2 : k = fe.index) hki
    · rw [if_neg hocc]
      refine ⟨?_, ?_, ?_⟩
      · show -1 ≤ max s.maxIndex (fe.index : Int)
        have := le_max_left s.maxIndex (fe.index : Int)
        omega
      · intro k hk
        have hk2 : max s.maxIndex (fe.index : Int) < (k : Int) := hk
        show ((Function.update s.entries fe.index
          { fe with color := color_convert fe.color mode, valid := true }) k).valid = false
        have h2 := le_max_right s.maxIndex (fe.index : Int)
        have h3 := le_max_left s.maxIndex (fe.index : Int)
        have hki : k ≠ fe.index := by intro he; subst he; omega
        rw [Function.update_noteq hki]
        apply hJa
        omega
      · intro k hk
        have hk2 : (k : Int) = max s.maxIndex (fe.index : Int) := hk
        show ((Function.update s.entries fe.index
          { fe with color := color_convert fe.color mode, valid := true }) k).valid = true
        by_cases hki : k = fe.index
        · subst hki; rw [Function.update_same]
        · rw [Function.update_noteq hki]
          rcases max_cases s.maxIndex (fe.index : Int) with ⟨he, _⟩ | ⟨he, _⟩
          · rw [he] at hk2
            exact hJb k hk2
          · rw [he] at hk2
            exact absurd (by exact_mod_cast hk2 : k = fe.index) hki

theorem resolveNonExactAll_invJW (lq : Option (List Rgba)) :
    ∀ (l : List PaletteEntry) (s s' : TableState),
      resolveNonExactAll lq l s = .ok s' →
      InvJ s ∧ InvW ((lq.getD []).length) s →
      InvJ s' ∧ InvW ((lq.getD []).length) s' := by
  intro l
  induction l with
  | nil =>
    intro s s' h hs
    cases Except.ok.inj h
    exact hs
  | cons fe rest ih =>
    intro s s' h hs
    unfold resolveNonExactAll at h
    by_cases hex : fe.exact = true
    · rw [if_pos hex] at h
      exact ih s s' h hs
    · rw [if_neg hex] at h
      cases lq with
      | none => cases h
      | some qs =>
        exact ih _ s' h (resolveNonExactStep_invJW qs.length s fe hs.1 hs.2)

theorem placeExactAll_invJ (mode : ColorMode) :
    ∀ (l : List PaletteEntry) (s : TableState), InvJ s → InvJ (placeExactAll mode l s) := by
  intro l
  induction l with
  | nil => intro s hs; exact hs
  | cons fe rest ih =>
    intro s hs
    exact ih (placeExactStep mode s fe) (placeExactStep_invJ mode s fe hs)

/-- The resolution phase starts with a state satisfying both invariants
(given an initially all-invalid table). -/
theorem wiStart_invJW (p : Palette) (lq : Option (List Rgba))
    (h0 : ∀ k, (p.entries k).valid = false) :
    InvJ (wiStart p lq) ∧ InvW ((lq.getD []).length) (wiStart p lq) := by
  cases lq with
  | none =>
    refine ⟨⟨le_refl _, fun k _ => h0 k, fun k hk => ?_⟩,
      by show ((0 : Nat) : Int) - 1 ≤ (-1 : Int); omega, Or.inl fun k hk => ?_⟩
    · have : (0 : Int) ≤ (k : Int) := Int.ofNat_nonneg k
      have hk2 : (k : Int) = -1 := hk
      omega
    · exact absurd hk (Nat.not_lt_zero k)
  | some qs =>
    have hent := storeQuantizedFrom_entries p.mode qs 0
      { entries := p.entries, maxIndex := -1 }
    have hmi := storeQuantizedFrom_maxIndex p.mode qs 0
      { entries := p.entries, maxIndex := -1 }
    have hmi2 : (wiStart p (some qs)).maxIndex = (qs.length : Int) - 1 := by
      show (storeQuantizedFrom p.mode 0 qs _).maxIndex = _
      rw [hmi]
      by_cases hql : qs.length = 0
      · rw [if_pos hql, hql]
        rfl
      · rw [if_neg hql]
        show max (-1) ((0 : Int) + (qs.length : Int) - 1) = _
        rw [max_eq_right (by omega)]
        omega
    have hval : ∀ k, ((wiStart p (some qs)).entries k).valid =
        if k < qs.length then true else (p.entries k).valid := by
      intro k
      show ((storeQuantizedFrom p.mode 0 qs _).entries k).valid = _
      rw [hent k]
      by_cases hk : k < qs.length
      · rw [if_pos (by omega : 0 ≤ k ∧ k < 0 + qs.length), if_pos hk]
      · rw [if_neg (by omega : ¬(0 ≤ k ∧ k < 0 + qs.length)), if_neg hk]
    refine ⟨⟨?_, ?_, ?_⟩, ?_, Or.inl ?_⟩
    · rw [hmi2]; omega
    · intro k hk
      rw [hmi2] at hk
      rw [hval k, if_neg (by omega), h0 k]
    · intro k hk
      rw [hmi2] at hk
      rw [hval k, if_pos (by omega)]
    · rw [hmi2]
      show (qs.length : Int) - 1 ≤ (qs.length : Int) - 1
      omega
    · intro k hk
      rw [hval k, if_pos (by
        show k < qs.length
        have : k < ((some qs).getD []).length := hk
        exact this)]

/-- Full inversion of a successful image-pipeline run. -/
theorem with_images_ok_inversion (quant : QuantFn) (loader : Loader) (p : Palette)
    (hok : (palette_generate_with_images quant loader p).err = none) :
    ∃ rows lq s2,
      wiRows? loader p = some rows ∧
      wiQuantRes quant p rows = .ok lq ∧
      resolveNonExactAll lq (wiFixed1 p) (wiStart p lq) = .ok s2 ∧
      palette_generate_with_images quant loader p = wiSuccess p rows lq s2 := by
  unfold palette_generate_with_images at hok ⊢
  cases hrows : wiRows? loader p with
  | none =>
    rw [hrows] at hok
    dsimp only at hok
    exact absurd hok (fun h =>
      Option.noConfusion (show some GenError.imageLoadFailure = none from h))
  | some rows =>
    rw [hrows] at hok
    dsimp only at hok ⊢
    cases hq : wiQuantRes quant p rows with
    | error e =>
      rw [hq] at hok
      dsimp only at hok
      exact absurd hok (fun h =>
        Option.noConfusion (show some GenError.quantizeFailure = none from h))
    | ok lq =>
      rw [hq] at hok
      dsimp only at hok ⊢
      cases hres : resolveNonExactAll lq (wiFixed1 p) (wiStart p lq) with
      | error e =>
        rw [hres] at hok
        dsimp only at hok
        exact absurd hok (fun h => Option.noConfusion (show some e = none from h))
      | ok s2 =>
        dsimp only
        exact ⟨rows, lq, s2, rfl, hq, hres, rfl⟩

/-! ### Counting lemmas for the color-multiset preservation proof -/

theorem tableSum_update (g : PaletteEntry → Nat) (e : Nat → PaletteEntry) (k : Nat)
    (v : PaletteEntry) (hk : k < PALETTE_MAX_ENTRIES + 1) :
    tableSum g (Function.update e k v) + g (e k) = tableSum g e + g v := by
  unfold tableSum
  have hmem : k ∈ Finset.range (PALETTE_MAX_ENTRIES + 1) := Finset.mem_range.mpr hk
  have h1 : ∀ x ∈ Finset.range (PALETTE_MAX_ENTRIES + 1),
      g (Function.update e k v x) = Function.update (fun x => g (e x)) k (g v) x := by
    intro x _
    by_cases hx : x = k
    · subst hx; rw [Function.update_same, Function.update_same]
    · rw [Function.update_noteq hx, Function.update_noteq hx]
  rw [Finset.sum_congr rfl h1, Finset.sum_update_of_mem hmem]
  rw [Finset.sum_eq_sum_diff_singleton_add hmem (fun x => g (e x))]
  omega

theorem tableSum_update_out (g : PaletteEntry → Nat) (e : Nat → PaletteEntry) (k : Nat)
    (v : PaletteEntry) (hk : ¬k < PALETTE_MAX_ENTRIES + 1) :
    tableSum g (Function.update e k v) = tableSum g e := by
  unfold tableSum
  refine Finset.sum_congr rfl fun x hx => ?_
  have : x ≠ k := by
    have := Finset.mem_range.mp hx
    omega
  rw [Function.update_noteq this]

theorem validCount_zero (e : Nat → PaletteEntry) (h0 : ∀ k, (e k).valid = false) :
    validCount e = 0 := by
  unfold validCount tableSum
  refine Finset.sum_eq_zero fun k _ => ?_
  show (if (e k).valid = true then 1 else 0) = 0
  rw [h0 k]
  rfl

theorem validCount_lt_firstFree (e : Nat → PaletteEntry)
    (h : validCount e < PALETTE_MAX_ENTRIES) :
    firstFreeIndex e < PALETTE_MAX_ENTRIES ∧ (e (firstFreeIndex e)).valid = false := by
  rcases firstFreeIndex_spec e with hff | hff
  · exfalso
    have hall : ∀ i < PALETTE_MAX_ENTRIES, (e i).valid = true := by
      intro i hi
      apply firstFreeFrom_min e PALETTE_MAX_ENTRIES 0 i (Nat.zero_le i)
      unfold firstFreeIndex at hff
      omega
    have hge : PALETTE_MAX_ENTRIES ≤ validCount e := by
      unfold validCount tableSum
      calc PALETTE_MAX_ENTRIES
          = ∑ k ∈ Finset.range PALETTE_MAX_ENTRIES, 1 := by
            rw [Finset.sum_const, Finset.card_range, smul_eq_mul, mul_one]
        _ = ∑ k ∈ Finset.range PALETTE_MAX_ENTRIES,
              (if (e k).valid = true then 1 else 0) := by
            refine Finset.sum_congr rfl fun k hk => ?_
            rw [hall k (Finset.mem_range.mp hk)]
            rfl
        _ ≤ ∑ k ∈ Finset.range (PALETTE_MAX_ENTRIES + 1),
              (if (e k).valid = true then 1 else 0) := by
            refine Finset.sum_le_sum_of_subset ?_
            intro x hx
            rw [Finset.mem_range] at hx ⊢
            omega
    omega
  · exact hff

theorem nonExactCount_add_exactCount (l : List PaletteEntry) :
    nonExactCount l + exactCount l = l.length := by
  unfold nonExactCount exactCount
  induction l with
  | nil => rfl
  | cons fe rest ih =>
    by_cases hex : fe.exact = true
    · rw [List.filter_cons_of_neg (by simp [hex]), List.filter_cons_of_pos (by simp [hex])]
      simp only [List.length_cons]
      omega
    · rw [List.filter_cons_of_pos (by simp [hex]), List.filter_cons_of_neg (by simp [hex])]
      simp only [List.length_cons]
      omega

theorem wiFixed1_exactCount (p : Palette) :
    exactCount (wiFixed1 p) = exactCount p.fixedEntries := by
  unfold exactCount wiFixed1
  induction p.fixedEntries with
  | nil => rfl
  | cons fe rest ih =>
    simp only [List.map_cons]
    by_cases hex : fe.exact = true
    · rw [if_pos hex, List.filter_cons_of_pos (by simp [hex]),
        List.filter_cons_of_pos (by simp [hex])]
      simp only [List.length_cons]
      omega
    · rw [if_neg hex, List.filter_cons_of_neg (by simp [hex]),
        List.filter_cons_of_neg (by simp [hex])]
      exact ih

theorem wiFixed1_nonExactCount (p : Palette) :
    nonExactCount (wiFixed1 p) = nonExactCount p.fixedEntries := by
  have h1 := nonExactCount_add_exactCount (wiFixed1 p)
  have h2 := nonExactCount_add_exactCount p.fixedEntries
  have h3 := wiFixed1_exactCount p
  have h4 : (wiFixed1 p).length = p.fixedEntries.length := List.length_map _ _
  omega

theorem placeExactStep_skip (mode : ColorMode) (s : TableState) (fe : PaletteEntry)
    (hex : fe.exact = false) : placeExactStep mode s fe = s := by
  unfold placeExactStep
  rw [if_pos hex]

theorem tableSum_double_update (g : PaletteEntry → Nat) (e : Nat → PaletteEntry)
    (j idx : Nat) (v : PaletteEntry)
    (hj : j < PALETTE_MAX_ENTRIES + 1) (hidx : idx < PALETTE_MAX_ENTRIES + 1)
    (hne : j ≠ idx) :
    tableSum g (Function.update (Function.update e j (e idx)) idx v) + g (e j) + g (e idx) =
      tableSum g e + g (e idx) + g v := by
  have h1 := tableSum_update g e j (e idx) hj
  have h2 := tableSum_update g (Function.update e j (e idx)) idx v hidx
  rw [Function.update_noteq (fun h => hne h.symm)] at h2
  omega

/-- One swap of the non-exact resolution never loses a valid color, and adds
at most one valid slot. -/
theorem resolveNonExactStep_colorCount_ge (count : Nat) (s : TableState)
    (fe : PaletteEntry) (c : Color)
    (hcount : count ≤ PALETTE_MAX_ENTRIES) (hidx : fe.index < PALETTE_MAX_ENTRIES) :
    colorCount s.entries c ≤ colorCount (resolveNonExactStep count s fe).entries c ∧
    validCount (resolveNonExactStep count s fe).entries ≤ validCount s.entries + 1 := by
  unfold resolveNonExactStep
  by_cases hex : fe.exact = true
  · rw [if_pos hex]; exact ⟨le_refl _, by omega⟩
  · rw [if_neg hex]
    cases hfind : findWindowMatch count s.entries fe with
    | none =>
      dsimp only
      exact ⟨le_refl _, by omega⟩
    | some j =>
      dsimp only
      have hj : j < count := findWindowMatch_lt count s.entries fe j hfind
      have hj2 : j < PALETTE_MAX_ENTRIES + 1 := by omega
      have hidx2 : fe.index < PALETTE_MAX_ENTRIES + 1 := by omega
      by_cases hji : j = fe.index
      · subst hji
        rw [show Function.update s.entries fe.index (s.entries fe.index) = s.entries from
          Function.update_eq_self fe.index s.entries]
        constructor
        · have hu := tableSum_update
            (fun en => if en.valid = true ∧ en.color = c then 1 else 0) s.entries fe.index
            { s.entries fe.index with valid := true } hidx2
          unfold colorCount
          dsimp only at hu ⊢
          simp only [eq_self_iff_true, true_and] at hu
          have hle : (if (s.entries fe.index).valid = true ∧ (s.entries fe.index).color = c
              then 1 else 0 : Nat) ≤
              (if (s.entries fe.index).color = c then 1 else 0 : Nat) := by
            by_cases h1 : (s.entries fe.index).color = c <;>
              by_cases h2 : (s.entries fe.index).valid = true <;> simp [h1, h2]
          omega
        · have hu := tableSum_update
            (fun en => if en.valid = true then 1 else 0) s.entries fe.index
            { s.entries fe.index with valid := true } hidx2
          unfold validCount
          dsimp only at hu ⊢
          simp only [eq_self_iff_true, if_true] at hu
          omega
      · constructor
        · have hu := tableSum_double_update
            (fun en => if en.valid = true ∧ en.color = c then 1 else 0) s.entries j fe.index
            { s.entries j with valid := true } hj2 hidx2 hji
          unfold colorCount
          dsimp only at hu ⊢
          simp only [eq_self_iff_true, true_and] at hu
          have hle : (if (s.entries j).valid = true ∧ (s.entries j).color = c
              then 1 else 0 : Nat) ≤
              (if (s.entries j).color = c then 1 else 0 : Nat) := by
            by_cases h1 : (s.entries j).color = c <;>
              by_cases h2 : (s.entries j).valid = true <;> simp [h1, h2]
          omega
        · have hu := tableSum_double_update
            (fun en => if en.valid = true then 1 else 0) s.entries j fe.index
            { s.entries j with valid := true } hj2 hidx2 hji
          unfold validCount
          dsimp only at hu ⊢
          simp only [eq_self_iff_true, if_true] at hu
          have hb : (if (s.entries fe.index).valid = true then 1 else 0 : Nat) ≤ 1 := by
            by_cases h : (s.entries fe.index).valid = true <;> simp [h]
          omega

/-- One exact placement never loses a valid color (the relocation target is
the first free slot, which is not valid), and adds at most one valid slot. -/
theorem placeExactStep_colorCount_ge (mode : ColorMode) (s : TableState)
    (fe : PaletteEntry) (c : Color)
    (hidx : fe.index < PALETTE_MAX_ENTRIES)
    (hvc : validCount s.entries < PALETTE_MAX_ENTRIES) :
    colorCount s.entries c ≤ colorCount (placeExactStep mode s fe).entries c ∧
    validCount (placeExactStep mode s fe).entries ≤ validCount s.entries + 1 := by
  unfold placeExactStep
  by_cases hex : fe.exact = false
  · rw [if_pos hex]; exact ⟨le_refl _, by omega⟩
  · rw [if_neg hex]
    have hidx2 : fe.index < PALETTE_MAX_ENTRIES + 1 := by omega
    by_cases hocc : (s.entries fe.index).valid = true
    · rw [if_pos hocc]
      obtain ⟨hfflt, hffinv⟩ := validCount_lt_firstFree s.entries hvc
      have hff2 : firstFreeIndex s.entries < PALETTE_MAX_ENTRIES + 1 := by omega
      have hffne : firstFreeIndex s.entries ≠ fe.index := by
        intro h
        rw [h, hocc] at hffinv
        cases hffinv
      constructor
      · have hu := tableSum_double_update
          (fun en => if en.valid = true ∧ en.color = c then 1 else 0) s.entries
          (firstFreeIndex s.entries) fe.index
          { fe with color := color_convert fe.color mode, valid := true } hff2 hidx2 hffne
        unfold colorCount
        dsimp only at hu ⊢
        simp only [eq_self_iff_true, true_and] at hu
        have hg0 : (if (s.entries (firstFreeIndex s.entries)).valid = true ∧
            (s.entries (firstFreeIndex s.entries)).color = c then 1 else 0 : Nat) = 0 := by
          rw [hffinv]
          simp
        omega
      · have hu := tableSum_double_update
          (fun en => if en.valid = true then 1 else 0) s.entries
          (firstFreeIndex s.entries) fe.index
          { fe with color := color_convert fe.color mode, valid := true } hff2 hidx2 hffne
        unfold validCount
        dsimp only at hu ⊢
        simp only [eq_self_iff_true, if_true] at hu
        have hg0 : (if (s.entries (firstFreeIndex s.entries)).valid = true
            then 1 else 0 : Nat) = 0 := by
          rw [hffinv]
          rfl
        have hb : (if (s.entries fe.index).valid = true then 1 else 0 : Nat) ≤ 1 := by
          rw [hocc]
          simp
        omega
    · rw [if_neg hocc]
      constructor
      · have hu := tableSum_update
          (fun en => if en.valid = true ∧ en.color = c then 1 else 0) s.entries fe.index
          { fe with color := color_convert fe.color mode, valid := true } hidx2
        unfold colorCount
        dsimp only at hu ⊢
        simp only [eq_self_iff_true, true_and] at hu
        have hg0 : (if (s.entries fe.index).valid = true ∧
            (s.entries fe.index).color = c then 1 else 0 : Nat) = 0 := by
          rw [Bool.eq_false_iff.mpr hocc]
          simp
        omega
      · have hu := tableSum_update
          (fun en => if en.valid = true then 1 else 0) s.entries fe.index
          { fe with color := color_convert fe.color mode, valid := true } hidx2
        unfold validCount
        dsimp only at hu ⊢
        simp only [eq_self_iff_true, if_true] at hu
        omega

/-- Updating one slot raises the number of valid slots by at most one. -/
theorem validCount_update_le (e : Nat → PaletteEntry) (k : Nat) (v : PaletteEntry) :
    validCount (Function.update e k v) ≤ validCount e + 1 := by
  by_cases hk : k < PALETTE_MAX_ENTRIES + 1
  · have hu := tableSum_update (fun en => if en.valid = true then 1 else 0) e k v hk
    unfold validCount
    dsimp only at hu
    have hb : (if v.valid = true then 1 else 0 : Nat) ≤ 1 := by
      by_cases h : v.valid = true <;> simp [h]
    omega
  · unfold validCount
    rw [tableSum_update_out _ _ _ _ hk]
    omega

/-- Storing the quantized palette marks at most one new slot valid per
stored color. -/
theorem storeQuantizedFrom_validCount (mode : ColorMode) :
    ∀ (qs : List Rgba) (i : Nat) (s : TableState),
      validCount (storeQuantizedFrom mode i qs s).entries ≤
        validCount s.entries + qs.length := by
  intro qs
  induction qs with
  | nil => intro i s; rw [storeQuantizedFrom]; simp
  | cons q rest ih =>
    intro i s
    rw [storeQuantizedFrom]
    dsimp only
    have hstep := validCount_update_le s.entries i
      { s.entries i with color := quantStoredColor mode q, valid := true }
    dsimp only at hstep
    have hrest := ih (i + 1)
      { entries := Function.update s.entries i
          { s.entries i with color := quantStoredColor mode q, valid := true },
        maxIndex := max s.maxIndex (i : Int) }
    dsimp only at hrest
    simp only [List.length_cons]
    omega

/-- The seeding loop does not change any fixed entry's pinned index. -/
theorem wiFixed1_index_lt (p : Palette)
    (hidx : ∀ fe ∈ p.fixedEntries, fe.index < PALETTE_MAX_ENTRIES) :
    ∀ fe ∈ wiFixed1 p, fe.index < PALETTE_MAX_ENTRIES := by
  intro fe hfe
  unfold wiFixed1 at hfe
  rcases List.mem_map.mp hfe with ⟨e, he, heq⟩
  have hind : fe.index = e.index := by
    by_cases hee : e.exact
    · rw [if_pos hee] at heq; rw [← heq]
    · rw [if_neg hee] at heq; rw [← heq]
  rw [hind]
  exact hidx e he

/-- The whole non-exact resolution loop never loses a valid color, and grows
the valid-slot count by at most the number of non-exact fixed entries. -/
theorem resolveNonExactAll_colorCount (lq : Option (List Rgba))
    (hq : ∀ qs, lq = some qs → qs.length ≤ PALETTE_MAX_ENTRIES) :
    ∀ (l : List PaletteEntry), (∀ fe ∈ l, fe.index < PALETTE_MAX_ENTRIES) →
      ∀ (s s2 : TableState), resolveNonExactAll lq l s = .ok s2 →
      (∀ c, colorCount s.entries c ≤ colorCount s2.entries c) ∧
      validCount s2.entries ≤ validCount s.entries + nonExactCount l := by
  intro l
  induction l with
  | nil =>
    intro _ s s2 hres
    rw [resolveNonExactAll] at hres
    cases hres
    refine ⟨fun c => le_refl _, ?_⟩
    unfold nonExactCount
    simp
  | cons fe rest ih =>
    intro hidx s s2 hres
    rw [resolveNonExactAll.eq_def] at hres
    dsimp only at hres
    by_cases hex : fe.exact = true
    · rw [if_pos hex] at hres
      have hr := ih (fun g hg => hidx g (List.mem_cons_of_mem fe hg)) s s2 hres
      have hnec : nonExactCount (fe :: rest) = nonExactCount rest := by
        unfold nonExactCount
        rw [List.filter_cons_of_neg (by simp [hex])]
      rw [hnec]
      exact hr
    · rw [if_neg hex] at hres
      cases hlq : lq with
      | none =>
        rw [hlq] at hres
        exact Except.noConfusion hres
      | some qs =>
        rw [hlq] at hres
        dsimp only at hres
        have hcnt : qs.length ≤ PALETTE_MAX_ENTRIES := hq qs hlq
        have hfi : fe.index < PALETTE_MAX_ENTRIES := hidx fe (List.mem_cons_self fe rest)
        rw [← hlq] at hres
        have hrest := ih (fun g hg => hidx g (List.mem_cons_of_mem fe hg))
          (resolveNonExactStep qs.length s fe) s2 hres
        have hnec : nonExactCount (fe :: rest) = nonExactCount rest + 1 := by
          unfold nonExactCount
          rw [List.filter_cons_of_pos (by simp [hex])]
          simp only [List.length_cons]
        refine ⟨fun c => le_trans
          (resolveNonExactStep_colorCount_ge qs.length s fe c hcnt hfi).1 (hrest.1 c), ?_⟩
        have hv := (resolveNonExactStep_colorCount_ge qs.length s fe fe.color hcnt hfi).2
        omega

/-- The whole exact-placement loop never loses a valid color, provided the
table never fills up (the valid-slot budget): each placed exact entry adds
at most one valid slot. -/
theorem placeExactAll_colorCount (mode : ColorMode) :
    ∀ (l : List PaletteEntry), (∀ fe ∈ l, fe.index < PALETTE_MAX_ENTRIES) →
      ∀ s : TableState, validCount s.entries + exactCount l ≤ PALETTE_MAX_ENTRIES →
      (∀ c, colorCount s.entries c ≤ colorCount (placeExactAll mode l s).entries c) ∧
      validCount (placeExactAll mode l s).entries ≤ validCount s.entries + exactCount l := by
  intro l
  induction l with
  | nil =>
    intro _ s _
    exact ⟨fun c => le_refl _, by unfold exactCount; simp [placeExactAll]⟩
  | cons fe rest ih =>
    intro hidx s hbudget
    have hfold : placeExactAll mode (fe :: rest) s =
        placeExactAll mode rest (placeExactStep mode s fe) := rfl
    rw [hfold]
    by_cases hex : fe.exact = true
    · have hec : exactCount (fe :: rest) = exactCount rest + 1 := by
        unfold exactCount
        rw [List.filter_cons_of_pos (by simp [hex])]
        simp only [List.length_cons]
      rw [hec] at hbudget
      have hvlt : validCount s.entries < PALETTE_MAX_ENTRIES := by omega
      have hfi : fe.index < PALETTE_MAX_ENTRIES := hidx fe (List.mem_cons_self fe rest)
      have hv := (placeExactStep_colorCount_ge mode s fe fe.color hfi hvlt).2
      have hrest := ih (fun g hg => hidx g (List.mem_cons_of_mem fe hg))
        (placeExactStep mode s fe) (by omega)
      refine ⟨fun c => le_trans
        (placeExactStep_colorCount_ge mode s fe c hfi hvlt).1 (hrest.1 c), ?_⟩
      rw [hec]
      omega
    · have hskip : placeExactStep mode s fe = s :=
        placeExactStep_skip mode s fe (by simpa using hex)
      rw [hskip]
      have hec : exactCount (fe :: rest) = exactCount rest := by
        unfold exactCount
        rw [List.filter_cons_of_neg (by simp [hex])]
      rw [hec] at hbudget ⊢
      exact ih (fun g hg => hidx g (List.mem_cons_of_mem fe hg)) s hbudget

/-- `getD` with an in-range index returns a list member. -/
theorem list_getD_mem {α : Type} : ∀ (l : List α) (n : Nat) (d : α),
    n < l.length → l.getD n d ∈ l := by
  intro l
  induction l with
  | nil => intro n d h; simp at h
  | cons a rest ih =>
    intro n d h
    cases n with
    | zero => rw [List.getD_cons_zero]; exact List.mem_cons_self a rest
    | succ m =>
      rw [List.getD_cons_succ]
      refine List.mem_cons_of_mem a (ih m d ?_)
      simp only [List.length_cons] at h
      omega

/-- With a quantizer result present, the non-exact resolution loop never
fails: it is the fold of the swap step. -/
theorem resolveNonExactAll_some (qs : List Rgba) :
    ∀ (l : List PaletteEntry) (s : TableState),
      resolveNonExactAll (some qs) l s =
        .ok (l.foldl (resolveNonExactStep qs.length) s) := by
  intro l
  induction l with
  | nil => intro s; rfl
  | cons fe rest ih =>
    intro s
    rw [resolveNonExactAll.eq_def]
    dsimp only
    by_cases hex : fe.exact = true
    · rw [if_pos hex, ih s]
      have hskip : resolveNonExactStep qs.length s fe = s := by
        unfold resolveNonExactStep
        rw [if_pos hex]
      rw [List.foldl_cons, hskip]
    · rw [if_neg hex]
      rw [ih (resolveNonExactStep qs.length s fe), List.foldl_cons]

/-- The swap step only moves colors already in the table, so a table with no
slot holding the RGB triple `bad` keeps that property. -/
theorem resolveNonExactStep_avoid (count : Nat) (s : TableState) (fe : PaletteEntry)
    (bad : Nat × Nat × Nat)
    (h : ∀ k, rgb3 (s.entries k).color.rgb ≠ bad) :
    ∀ k, rgb3 ((resolveNonExactStep count s fe).entries k).color.rgb ≠ bad := by
  intro k
  unfold resolveNonExactStep
  by_cases hex : fe.exact = true
  · rw [if_pos hex]; exact h k
  · rw [if_neg hex]
    cases hfind : findWindowMatch count s.entries fe with
    | none => dsimp only; exact h k
    | some j =>
      dsimp only
      by_cases hk1 : k = fe.index
      · subst hk1
        rw [Function.update_same]
        exact h j
      · rw [Function.update_noteq hk1]
        by_cases hk2 : k = j
        · subst hk2
          rw [Function.update_same]
          exact h fe.index
        · rw [Function.update_noteq hk2]
          exact h k

/-- The exact-placement step writes only the (RGB-preserving) converted
exact color and a color moved from elsewhere in the table. -/
theorem placeExactStep_avoid (mode : ColorMode) (s : TableState) (fe : PaletteEntry)
    (bad : Nat × Nat × Nat)
    (hfe : fe.exact = true → rgb3 fe.color.rgb ≠ bad)
    (h : ∀ k, rgb3 (s.entries k).color.rgb ≠ bad) :
    ∀ k, rgb3 ((placeExactStep mode s fe).entries k).color.rgb ≠ bad := by
  intro k
  unfold placeExactStep
  by_cases hex : fe.exact = false
  · rw [if_pos hex]; exact h k
  · rw [if_neg hex]
    have hex' : fe.exact = true := by
      cases hb : fe.exact
      · exact absurd hb hex
      · rfl
    by_cases hocc : (s.entries fe.index).valid = true
    · rw [if_pos hocc]
      dsimp only
      by_cases hk1 : k = fe.index
      · subst hk1
        rw [Function.update_same]
        dsimp only [color_convert]
        exact hfe hex'
      · rw [Function.update_noteq hk1]
        by_cases hk2 : k = firstFreeIndex s.entries
        · subst hk2
          rw [Function.update_same]
          exact h fe.index
        · rw [Function.update_noteq hk2]
          exact h k
    · rw [if_neg hocc]
      dsimp only
      by_cases hk1 : k = fe.index
      · subst hk1
        rw [Function.update_same]
        dsimp only [color_convert]
        exact hfe hex'
      · rw [Function.update_noteq hk1]
        exact h k

/-- After storing the quantizer result, every slot holds either a quantized
RGB triple or its original content. -/
theorem wiStart_avoid (p : Palette) (qs : List Rgba) (bad : Nat × Nat × Nat)
    (hq1 : ∀ q ∈ qs, rgb3 q ≠ bad)
    (h0 : ∀ k, rgb3 (p.entries k).color.rgb ≠ bad) :
    ∀ k, rgb3 ((wiStart p (some qs)).entries k).color.rgb ≠ bad := by
  intro k
  have hs : wiStart p (some qs) =
      storeQuantizedFrom p.mode 0 qs { entries := p.entries, maxIndex := -1 } := rfl
  rw [hs, storeQuantizedFrom_entries]
  by_cases hk : 0 ≤ k ∧ k < 0 + qs.length
  · rw [if_pos hk]
    dsimp only
    have hmem : qs.getD (k - 0) { r := 0, g := 0, b := 0, a := 0 } ∈ qs :=
      list_getD_mem qs (k - 0) _ (by omega)
    have hrq : rgb3 (quantStoredColor p.mode
        (qs.getD (k - 0) { r := 0, g := 0, b := 0, a := 0 })).rgb =
        rgb3 (qs.getD (k - 0) { r := 0, g := 0, b := 0, a := 0 }) := rfl
    rw [hrq]
    exact hq1 _ hmem
  · rw [if_neg hk]
    dsimp only
    exact h0 k

/-! ### Claim theorems -/

/-- C10: when no pixels were submitted to the quantizer (here the
quantization capacity is 1, so the image loop never runs) and a non-exact
fixed entry exists, the fixed-color resolution loop reads the absent
quantizer result: the model's run of `palette_generate` ends in the
distinguished `nullDeref` outcome, which marks the C code dereferencing the
NULL `liqpalette` at line 438. -/
theorem c10_null_liqpalette_read :
    (palette_generate exQuantEmpty exLoaderOnePixel c10Pal []).err =
      some GenError.nullDeref ∧
    (palette_generate exQuantEmpty exLoaderOnePixel c10Pal []).needQuantize = false := by
  constructor <;> rfl

/-- C4: with a non-builtin name and more fixed entries than `maxEntries`,
`palette_generate` fails at the capacity guard (line 566) with the
`TooManyFixedColors` exit, and neither the entry table nor `numEntries` has
been modified. -/
theorem c4_capacity_guard (quant : QuantFn) (loader : Loader) (p : Palette)
    (converts : List Convert)
    (hx : p.name ≠ "xlibc") (hr : p.name ≠ "rgb332")
    (hover : p.maxEntries < p.fixedEntries.length) :
    (palette_generate quant loader p converts).err = some GenError.tooManyFixedColors ∧
    (∀ k, (palette_generate quant loader p converts).palette.entries k = p.entries k) ∧
    (palette_generate quant loader p converts).palette.numEntries = p.numEntries := by
  unfold palette_generate
  rw [if_neg hx, if_neg hr]
  obtain ⟨he, hn, hf, hm, _, _⟩ := generateP1_preserves p converts
  simp only [hf, hm]
  rw [if_pos hover]
  exact ⟨rfl, fun k => congrFun he k, hn⟩

/-- C7: with a non-builtin name and no images, `palette_generate` fails with
`EmptyPalette` when there are no fixed entries; otherwise (distinct pinned
indices) it succeeds with every fixed entry copied to its pinned index, no
quantization, and `numEntries` equal to 1 plus the largest pinned index. -/
theorem c7_no_images_branch (quant : QuantFn) (loader : Loader) (p : Palette)
    (converts : List Convert)
    (hx : p.name ≠ "xlibc") (hr : p.name ≠ "rgb332")
    (hauto : p.automatic = false) (himg : p.images = [])
    (hguard : p.fixedEntries.length ≤ p.maxEntries) :
    (p.fixedEntries = [] →
      (palette_generate quant loader p converts).err = some GenError.emptyPalette) ∧
    (p.fixedEntries ≠ [] → (p.fixedEntries.map (fun e => e.index)).Nodup →
      (palette_generate quant loader p converts).err = none ∧
      (∀ fe ∈ p.fixedEntries,
        (palette_generate quant loader p converts).palette.entries fe.index = fe) ∧
      (∀ fe ∈ p.fixedEntries,
        fe.index < (palette_generate quant loader p converts).palette.numEntries) ∧
      (∃ fe ∈ p.fixedEntries,
        (palette_generate quant loader p converts).palette.numEntries = fe.index + 1) ∧
      (palette_generate quant loader p converts).quantInvoked = false) := by
  unfold palette_generate
  rw [if_neg hx, if_neg hr]
  simp only [generateP1_of_not_automatic p converts hauto]
  rw [if_neg (by omega : ¬ p.maxEntries < p.fixedEntries.length)]
  rw [if_neg (by rw [himg]; exact lt_irrefl 0 : ¬ 0 < p.images.length)]
  constructor
  · intro hnil
    rw [if_pos (by rw [hnil]; rfl)]
    rfl
  · intro hne hdist
    rw [if_neg (fun h => hne (List.eq_nil_of_length_eq_zero h))]
    have huniq : ∀ fe ∈ p.fixedEntries, ∀ g ∈ p.fixedEntries, g.index = fe.index → g = fe :=
      fun fe hfe g hg h => List.inj_on_of_nodup_map hdist hg hfe h
    refine ⟨rfl, ?_, ?_, ?_, rfl⟩
    · intro fe hfe
      exact directPlace_entries_mem p.fixedEntries _ fe hfe (huniq fe hfe)
    · intro fe hfe
      have h1 := directPlace_maxIndex_mem p.fixedEntries
        { entries := p.entries, maxIndex := -1 } fe hfe
      show fe.index < ((directPlace p.fixedEntries
        { entries := p.entries, maxIndex := -1 }).maxIndex + 1).toNat
      set D := directPlace p.fixedEntries { entries := p.entries, maxIndex := -1 } with hD
      omega
    · rcases directPlace_maxIndex_cases p.fixedEntries
        { entries := p.entries, maxIndex := -1 } with h | ⟨fe, hfe, h⟩
      · rcases List.exists_mem_of_ne_nil p.fixedEntries hne with ⟨fe, hfe⟩
        have h1 := directPlace_maxIndex_mem p.fixedEntries
          { entries := p.entries, maxIndex := -1 } fe hfe
        rw [h] at h1
        simp only [] at h1
        omega
      · refine ⟨fe, hfe, ?_⟩
        show ((directPlace p.fixedEntries
          { entries := p.entries, maxIndex := -1 }).maxIndex + 1).toNat = fe.index + 1
        rw [h]
        omega

/-- C7 witness: one fixed entry pinned at index 2, no images. -/
theorem c7_no_images_branch_witness :
    (palette_generate exQuantEmpty exLoaderFail
        (exPal "pal" 8 [{ color := exColor 1 1 1, index := 2, exact := false, valid := true }] [] 0)
        []).err = none ∧
    (palette_generate exQuantEmpty exLoaderFail
        (exPal "pal" 8 [{ color := exColor 1 1 1, index := 2, exact := false, valid := true }] [] 0)
        []).palette.numEntries = 3 := by
  have h := (c7_no_images_branch exQuantEmpty exLoaderFail
      (exPal "pal" 8 [{ color := exColor 1 1 1, index := 2, exact := false, valid := true }] [] 0)
      [] (by decide) (by decide) rfl rfl (by decide)).2
      (by decide) (by decide)
  obtain ⟨h1, _, _, ⟨fe, hfe, h4⟩, _⟩ := h
  refine ⟨h1, ?_⟩
  have : fe = { color := exColor 1 1 1, index := 2, exact := false, valid := true } := by
    simpa [exPal] using hfe
  rw [h4, this]

/-- C8: when the first failing image load is reached (the loop runs because
the quantization capacity exceeds 1), the whole construction aborts with the
image-load failure: the entry table and `numEntries` are untouched, the
quantizer is never invoked, its histogram and attribute handles are
released, and the images after the failing one are never consulted (the
image loop's result is the same as if they were absent). -/
theorem c8_load_failure_aborts (quant : QuantFn) (loader : Loader) (p : Palette)
    (converts : List Convert) (pre : List String) (bad : String) (post : List String)
    (hx : p.name ≠ "xlibc") (hr : p.name ≠ "rgb332") (hauto : p.automatic = false)
    (hguard : p.fixedEntries.length ≤ p.maxEntries)
    (hcap : exactCount p.fixedEntries + 1 < p.maxEntries)
    (himages : p.images = pre ++ bad :: post)
    (hpre : ∀ q ∈ pre, loader q ≠ none) (hbad : loader bad = none) :
    (palette_generate quant loader p converts).err = some GenError.imageLoadFailure ∧
    (∀ k, (palette_generate quant loader p converts).palette.entries k = p.entries k) ∧
    (palette_generate quant loader p converts).palette.numEntries = p.numEntries ∧
    (palette_generate quant loader p converts).quantInvoked = false ∧
    (palette_generate quant loader p converts).histDestroyed = true ∧
    (palette_generate quant loader p converts).attrDestroyed = true ∧
    processImages loader (wiFixed1 p) p.mode (pre ++ bad :: post) =
      processImages loader (wiFixed1 p) p.mode (pre ++ [bad]) := by
  have hfail := processImages_fail_first loader (wiFixed1 p) p.mode pre bad post hpre hbad
  have hfail1 := processImages_fail_first loader (wiFixed1 p) p.mode pre bad [] hpre hbad
  have himg : p.images ≠ [] := by
    rw [himages]; exact List.append_ne_nil_of_right_ne_nil pre (List.cons_ne_nil bad post)
  rw [generate_images_branch quant loader p converts hx hr hauto hguard himg]
  have hrows : wiRows? loader p = none := by
    unfold wiRows? wiQuantMax
    rw [if_pos (by omega : 1 < p.maxEntries - exactCount p.fixedEntries)]
    rw [himages]
    exact hfail
  unfold palette_generate_with_images
  rw [hrows]
  exact ⟨rfl, fun _ => rfl, rfl, rfl, rfl, rfl, hfail.trans hfail1.symm⟩

/-- C8 witness: two images, the first of which fails to load. -/
theorem c8_load_failure_aborts_witness :
    (palette_generate exQuantEmpty exLoaderFail
        (exPal "pal" 8 [] ["a", "b"] 0) []).err = some GenError.imageLoadFailure ∧
    (palette_generate exQuantEmpty exLoaderFail
        (exPal "pal" 8 [] ["a", "b"] 0) []).quantInvoked = false := by
  have h := c8_load_failure_aborts exQuantEmpty exLoaderFail
    (exPal "pal" 8 [] ["a", "b"] 0) [] [] "a" ["b"]
    (by decide) (by decide) rfl (by decide) (by decide) rfl
    (fun q hq => absurd hq (List.not_mem_nil q)) rfl
  exact ⟨h.1, h.2.2.2.1⟩

/-- C3 (amended): with a reserved builtin name, `palette_generate` succeeds
with `numEntries = 256` and entries `0..255` holding the builtin reference
triplets (alpha 255) converted — with the hardcoded `COLOR_MODE_1555_GBGR`,
not the palette's own mode (line 544/551) — while each slot's `valid`,
`index` and `exact` fields and all other palette configuration (fixed
entries, images) are left untouched and never consulted. -/
theorem c3_builtin_bypass (quant : QuantFn) (loader : Loader) (p : Palette)
    (converts : List Convert)
    (hname : p.name = "xlibc" ∨ p.name = "rgb332") :
    (palette_generate quant loader p converts).err = none ∧
    (palette_generate quant loader p converts).palette.numEntries = 256 ∧
    (∀ i, i < 256 →
      (palette_generate quant loader p converts).palette.entries i =
        { p.entries i with
            color := builtinColor
              (if p.name = "xlibc" then palette_xlibc else palette_rgb332)
              COLOR_MODE_1555_GBGR i }) ∧
    (∀ i, 256 ≤ i →
      (palette_generate quant loader p converts).palette.entries i = p.entries i) ∧
    (palette_generate quant loader p converts).palette.fixedEntries = p.fixedEntries ∧
    (palette_generate quant loader p converts).palette.images = p.images ∧
    (palette_generate quant loader p converts).quantInvoked = false := by
  rcases hname with h | h
  · unfold palette_generate
    rw [if_pos h]
    refine ⟨rfl, rfl, ?_, ?_, rfl, rfl, rfl⟩
    · intro i hi
      simp only [pureTrace, palette_generate_builtin, builtinStore]
      rw [builtinStoreFrom_apply,
        if_pos ⟨Nat.zero_le i, by unfold PALETTE_MAX_ENTRIES; omega⟩]
      simp [h]
    · intro i hi
      simp only [pureTrace, palette_generate_builtin, builtinStore]
      rw [builtinStoreFrom_apply, if_neg (by unfold PALETTE_MAX_ENTRIES; omega)]
  · have hx : p.name ≠ "xlibc" := by rw [h]; decide
    unfold palette_generate
    rw [if_neg hx, if_pos h]
    refine ⟨rfl, rfl, ?_, ?_, rfl, rfl, rfl⟩
    · intro i hi
      simp only [pureTrace, palette_generate_builtin, builtinStore]
      rw [builtinStoreFrom_apply,
        if_pos ⟨Nat.zero_le i, by unfold PALETTE_MAX_ENTRIES; omega⟩]
      simp [h]
    · intro i hi
      simp only [pureTrace, palette_generate_builtin, builtinStore]
      rw [builtinStoreFrom_apply, if_neg (by unfold PALETTE_MAX_ENTRIES; omega)]

/-- C3 witness: the `rgb332` builtin on a default palette. -/
theorem c3_builtin_bypass_witness :
    (exPal "rgb332" 256 [] [] 0).name = "rgb332" ∧
    (palette_generate exQuantEmpty exLoaderFail (exPal "rgb332" 256 [] [] 0) []).err = none ∧
    (palette_generate exQuantEmpty exLoaderFail
      (exPal "rgb332" 256 [] [] 0) []).palette.numEntries = 256 := by
  have h := c3_builtin_bypass exQuantEmpty exLoaderFail (exPal "rgb332" 256 [] [] 0) []
    (Or.inr rfl)
  exact ⟨rfl, h.1, h.2.1⟩

set_option maxRecDepth 4000 in
/-- C3 counterexample: with palette mode 1 and name `xlibc`, the generated
entry 0 is converted with `COLOR_MODE_1555_GBGR` (mode 0), not the palette's
target mode, and its `valid` flag is not set — the claim's "256 valid
entries ... converted to the target color mode" fails. -/
theorem c3_builtin_mode_counterexample :
    (palette_generate exQuantEmpty exLoaderFail (exPal "xlibc" 256 [] [] 1) []).err = none ∧
    ((palette_generate exQuantEmpty exLoaderFail
        (exPal "xlibc" 256 [] [] 1) []).palette.entries 0).valid = false ∧
    ((palette_generate exQuantEmpty exLoaderFail
        (exPal "xlibc" 256 [] [] 1) []).palette.entries 0).color.convertedMode =
      some COLOR_MODE_1555_GBGR ∧
    (exPal "xlibc" 256 [] [] 1).mode ≠ COLOR_MODE_1555_GBGR := by
  have hstep : (palette_generate exQuantEmpty exLoaderFail
      (exPal "xlibc" 256 [] [] 1) []).palette.entries =
      builtinStore palette_xlibc COLOR_MODE_1555_GBGR PALETTE_MAX_ENTRIES
        (exPal "xlibc" 256 [] [] 1).entries := by
    unfold palette_generate
    rw [if_pos (show (exPal "xlibc" 256 [] [] 1).name = "xlibc" from rfl)]
    exact rfl
  have h0 : (palette_generate exQuantEmpty exLoaderFail
      (exPal "xlibc" 256 [] [] 1) []).palette.entries 0 =
      { (exPal "xlibc" 256 [] [] 1).entries 0 with
          color := builtinColor palette_xlibc COLOR_MODE_1555_GBGR 0 } := by
    rw [congrFun hstep 0]
    unfold builtinStore
    rw [builtinStoreFrom_apply,
      if_pos (⟨Nat.zero_le 0, by unfold PALETTE_MAX_ENTRIES; omega⟩ :
        0 ≤ 0 ∧ 0 < 0 + PALETTE_MAX_ENTRIES)]
  refine ⟨rfl, ?_, ?_, by decide⟩
  · rw [h0]
    rfl
  · rw [h0]
    rfl

/-- C2: (a) no pixel whose raw RGB bytes equal those of an exact fixed entry
is ever part of the data submitted to the quantizer; (b) if every loaded
image filters to no surviving pixels (or no image is processed at all),
`needQuantize` stays false, the quantizer is never invoked, and a successful
table holds only mode-converted exact fixed colors. -/
theorem c2_exact_pixel_filtering (quant : QuantFn) (loader : Loader) (p : Palette)
    (converts : List Convert) :
    (∀ row ∈ (palette_generate quant loader p converts).submitted, ∀ c ∈ row,
      ∀ g ∈ p.fixedEntries, g.exact = true →
        ¬(c.rgb.r = g.color.rgb.r ∧ c.rgb.g = g.color.rgb.g ∧ c.rgb.b = g.color.rgb.b)) ∧
    (p.automatic = false → p.images ≠ [] →
      (∀ k, (p.entries k).valid = false) →
      (∀ img ∈ p.images, ∀ px, loader img = some px →
        filterImagePixels (wiFixed1 p) p.mode px = []) →
      (palette_generate quant loader p converts).needQuantize = false ∧
      (palette_generate quant loader p converts).quantInvoked = false ∧
      ((palette_generate quant loader p converts).err = none →
        ∀ k, ((palette_generate quant loader p converts).palette.entries k).valid = true →
          ∃ g ∈ p.fixedEntries, g.exact = true ∧
            ((palette_generate quant loader p converts).palette.entries k).color =
              color_convert g.color p.mode)) := by
  constructor
  · intro row hrow c hc g hg hgex
    rcases generate_submitted quant loader p converts row hrow with ⟨rows, hrows, hrmem⟩
    rcases wiRows?_some_spec loader (generateP1 p converts) rows hrows row hrmem with ⟨px, hpx⟩
    rw [hpx] at hc
    rcases mem_filterImagePixels _ _ px c hc with ⟨q, _, hqm, hcq⟩
    have hgg : g ∈ wiFixed1 (generateP1 p converts) := by
      rw [wiFixed1_eq_of (generateP1 p converts) p
        (generateP1_preserves p converts).2.2.1 (generateP1_preserves p converts).2.2.2.2.2]
      exact exact_mem_wiFixed1 p g hg hgex
    have := matchesExactFixed_false_spec _ q hqm g hgg hgex
    rw [hcq]
    exact this
  · intro hauto himg h0 H
    unfold palette_generate
    by_cases hx : p.name = "xlibc"
    · rw [if_pos hx]
      refine ⟨rfl, rfl, fun _ k hv => ?_⟩
      have hv2 : (builtinStore palette_xlibc COLOR_MODE_1555_GBGR PALETTE_MAX_ENTRIES
        p.entries k).valid = true := hv
      rw [builtinStore_valid, h0 k] at hv2
      exact absurd hv2 Bool.false_ne_true
    rw [if_neg hx]
    by_cases hr : p.name = "rgb332"
    · rw [if_pos hr]
      refine ⟨rfl, rfl, fun _ k hv => ?_⟩
      have hv2 : (builtinStore palette_rgb332 COLOR_MODE_1555_GBGR PALETTE_MAX_ENTRIES
        p.entries k).valid = true := hv
      rw [builtinStore_valid, h0 k] at hv2
      exact absurd hv2 Bool.false_ne_true
    rw [if_neg hr]
    rw [generateP1_of_not_automatic p converts hauto]
    by_cases hg : p.maxEntries < p.fixedEntries.length
    · rw [if_pos hg]
      exact ⟨rfl, rfl, fun he =>
        absurd he (fun h => Option.noConfusion
          (show some GenError.tooManyFixedColors = none from h))⟩
    rw [if_neg hg]
    rw [if_pos (List.length_pos.mpr himg)]
    exact with_images_no_quantize quant loader p h0 H

/-- C2 witness: one exact black fixed entry, one image whose single pixel is
black: every pixel is filtered, quantization is skipped, and the final table
holds only the converted exact entry. -/
theorem c2_exact_pixel_filtering_witness :
    (palette_generate exQuantEmpty (fun _ => some [{ r := 0, g := 0, b := 0, a := 9 }])
      (exPal "pal" 256 [{ color := exColor 0 0 0, index := 0, exact := true, valid := false }]
        ["img"] 0) []).needQuantize = false ∧
    (palette_generate exQuantEmpty (fun _ => some [{ r := 0, g := 0, b := 0, a := 9 }])
      (exPal "pal" 256 [{ color := exColor 0 0 0, index := 0, exact := true, valid := false }]
        ["img"] 0) []).quantInvoked = false := by
  have h := (c2_exact_pixel_filtering exQuantEmpty
    (fun _ => some [{ r := 0, g := 0, b := 0, a := 9 }])
    (exPal "pal" 256 [{ color := exColor 0 0 0, index := 0, exact := true, valid := false }]
      ["img"] 0) []).2 rfl (by decide) (fun _ => rfl)
    (by
      intro img _ px hpx
      have : px = [{ r := 0, g := 0, b := 0, a := 9 }] := (Option.some.inj hpx).symm
      rw [this]
      decide)
  exact ⟨h.1, h.2.1⟩

/-- C1 (amended): in the image pipeline (non-builtin name, nonempty image
list), after `palette_generate` succeeds, every exact fixed entry with a
distinct pinned index below the table size sits, mode-converted and valid,
at its pinned index — whatever the quantizer returned.  (In the no-images
branch the entry is instead copied verbatim, unconverted; see the
counterexample.) -/
theorem c1_exact_fidelity_images (quant : QuantFn) (loader : Loader) (p : Palette)
    (converts : List Convert) (fe : PaletteEntry)
    (hx : p.name ≠ "xlibc") (hr : p.name ≠ "rgb332") (hauto : p.automatic = false)
    (himg : p.images ≠ []) (hguard : p.fixedEntries.length ≤ p.maxEntries)
    (hok : (palette_generate quant loader p converts).err = none)
    (hfe : fe ∈ p.fixedEntries) (hex : fe.exact = true)
    (hdist : (p.fixedEntries.map (fun e => e.index)).Nodup)
    (hidx : ∀ g ∈ p.fixedEntries, g.index < p.maxEntries)
    (hmax : p.maxEntries ≤ PALETTE_MAX_ENTRIES) :
    (palette_generate quant loader p converts).palette.entries fe.index =
      { fe with color := color_convert fe.color p.mode, valid := true } := by
  rw [generate_images_branch quant loader p converts hx hr hauto hguard himg] at hok ⊢
  rcases with_images_ok_entries quant loader p hok with ⟨s2, hent⟩
  rw [congrFun hent fe.index]
  apply placeExactAll_mem p.mode (wiFixed1 p) s2 fe
    (exact_mem_wiFixed1 p fe hfe hex) hex
    (lt_of_lt_of_le (hidx fe hfe) hmax)
  intro g hg hgex hgne
  have hgmem : g ∈ p.fixedEntries := mem_wiFixed1 p g hg hgex
  intro heq
  exact hgne (List.inj_on_of_nodup_map hdist hgmem hfe heq)

/-- C1 witness: one exact entry (1,2,3) pinned at index 0, one image, a
one-color quantizer. -/
theorem c1_exact_fidelity_images_witness :
    (palette_generate exQuantOne exLoaderOnePixel
      (exPal "pal" 256 [{ color := exColor 1 2 3, index := 0, exact := true, valid := false }]
        ["img"] 0) []).palette.entries 0 =
      { color := color_convert (exColor 1 2 3) 0, index := 0, exact := true, valid := true } := by
  exact c1_exact_fidelity_images exQuantOne exLoaderOnePixel
    (exPal "pal" 256 [{ color := exColor 1 2 3, index := 0, exact := true, valid := false }]
      ["img"] 0) []
    { color := exColor 1 2 3, index := 0, exact := true, valid := false }
    (by decide) (by decide) rfl (by decide) (by decide) rfl
    (List.mem_cons_self _ _) rfl (by decide) (by decide) (by decide)

/-- C1 counterexample: in the no-images branch (lines 595-603) the exact
fixed entry is copied verbatim: its color is never mode-converted and its
`valid` flag is not forced, so `entries[fixedEntry.index]` does not hold the
mode-converted color with `valid = true` even though `palette_generate`
succeeded. -/
theorem c1_no_images_counterexample :
    (palette_generate exQuantEmpty exLoaderFail
      (exPal "pal" 256 [{ color := exColor 1 2 3, index := 0, exact := true, valid := false }]
        [] 0) []).err = none ∧
    ((palette_generate exQuantEmpty exLoaderFail
      (exPal "pal" 256 [{ color := exColor 1 2 3, index := 0, exact := true, valid := false }]
        [] 0) []).palette.entries 0).color.convertedMode = none ∧
    ((palette_generate exQuantEmpty exLoaderFail
      (exPal "pal" 256 [{ color := exColor 1 2 3, index := 0, exact := true, valid := false }]
        [] 0) []).palette.entries 0).valid = false := by
  refine ⟨rfl, rfl, rfl⟩

/-- C5 (amended): after a successful image-pipeline `palette_generate` on an
initially all-invalid table, `numEntries` equals 1 plus the maximum index of
any valid entry (every valid entry lies below `numEntries` and, when the
table is nonempty, the top slot is valid), and the `unused` diagnostic is
exactly the count of invalid indices below `numEntries` — holes are counted,
never an error.  (The claim's `numEntries ≤ maxEntries` conjunct is false on
the code: see the counterexample.) -/
theorem c5_index_hole_invariant (quant : QuantFn) (loader : Loader) (p : Palette)
    (converts : List Convert)
    (hx : p.name ≠ "xlibc") (hr : p.name ≠ "rgb332") (hauto : p.automatic = false)
    (himg : p.images ≠ []) (hguard : p.fixedEntries.length ≤ p.maxEntries)
    (h0 : ∀ k, (p.entries k).valid = false)
    (hok : (palette_generate quant loader p converts).err = none) :
    (∀ k, ((palette_generate quant loader p converts).palette.entries k).valid = true →
      k < (palette_generate quant loader p converts).palette.numEntries) ∧
    ((palette_generate quant loader p converts).palette.numEntries ≠ 0 →
      ((palette_generate quant loader p converts).palette.entries
        ((palette_generate quant loader p converts).palette.numEntries - 1)).valid = true) ∧
    (palette_generate quant loader p converts).unused =
      countUnused (palette_generate quant loader p converts).palette.entries
        (palette_generate quant loader p converts).palette.numEntries := by
  rw [generate_images_branch quant loader p converts hx hr hauto hguard himg] at hok ⊢
  rcases with_images_ok_inversion quant loader p hok with ⟨rows, lq, s2, _, _, hres, htr⟩
  have hJ3 : InvJ (placeExactAll p.mode (wiFixed1 p) s2) :=
    placeExactAll_invJ p.mode (wiFixed1 p) s2
      (resolveNonExactAll_invJW lq (wiFixed1 p) (wiStart p lq) s2 hres
        (wiStart_invJW p lq h0)).1
  rw [htr]
  obtain ⟨hm1, hJa, hJb⟩ := hJ3
  refine ⟨?_, ?_, rfl⟩
  · intro k hv
    show k < ((placeExactAll p.mode (wiFixed1 p) s2).maxIndex + 1).toNat
    by_contra hge
    have hge2 : ((placeExactAll p.mode (wiFixed1 p) s2).maxIndex + 1).toNat ≤ k :=
      Nat.le_of_not_lt hge
    have : (placeExactAll p.mode (wiFixed1 p) s2).maxIndex < (k : Int) := by omega
    have hv2 : ((placeExactAll p.mode (wiFixed1 p) s2).entries k).valid = false := hJa k this
    have hv3 : ((wiSuccess p rows lq s2).palette.entries k).valid = true := hv
    rw [show (wiSuccess p rows lq s2).palette.entries k =
      (placeExactAll p.mode (wiFixed1 p) s2).entries k from rfl] at hv3
    rw [hv2] at hv3
    cases hv3
  · intro hne
    have hne2 : ((placeExactAll p.mode (wiFixed1 p) s2).maxIndex + 1).toNat ≠ 0 := hne
    show ((placeExactAll p.mode (wiFixed1 p) s2).entries
      (((placeExactAll p.mode (wiFixed1 p) s2).maxIndex + 1).toNat - 1)).valid = true
    apply hJb
    omega

/-- C5 witness: a successful run with one exact entry at index 10 and one
quantized color. -/
theorem c5_index_hole_invariant_witness :
    10 < (palette_generate exQuantOne exLoaderOnePixel
      (exPal "pal" 256 [{ color := exColor 5 5 5, index := 10, exact := true, valid := false }]
        ["img"] 0) []).palette.numEntries := by
  exact (c5_index_hole_invariant exQuantOne exLoaderOnePixel
    (exPal "pal" 256 [{ color := exColor 5 5 5, index := 10, exact := true, valid := false }]
      ["img"] 0) []
    (by decide) (by decide) rfl (by decide) (by decide) (fun _ => rfl) rfl).1 10 (by decide)

/-- C5 counterexample: a successful run can leave `numEntries` above
`maxEntries` — the capacity guard only bounds the number of fixed entries,
not their pinned indices (here `maxEntries = 4`, one exact entry pinned at
index 10, so `numEntries = 11`). -/
theorem c5_numentries_exceeds_max_counterexample :
    (palette_generate exQuantOne exLoaderOnePixel
      (exPal "pal" 4 [{ color := exColor 5 5 5, index := 10, exact := true, valid := false }]
        ["img"] 0) []).err = none ∧
    (palette_generate exQuantOne exLoaderOnePixel
      (exPal "pal" 4 [{ color := exColor 5 5 5, index := 10, exact := true, valid := false }]
        ["img"] 0) []).palette.numEntries = 11 ∧
    ¬((palette_generate exQuantOne exLoaderOnePixel
      (exPal "pal" 4 [{ color := exColor 5 5 5, index := 10, exact := true, valid := false }]
        ["img"] 0) []).palette.numEntries ≤
      (palette_generate exQuantOne exLoaderOnePixel
        (exPal "pal" 4 [{ color := exColor 5 5 5, index := 10, exact := true, valid := false }]
          ["img"] 0) []).palette.maxEntries) := by
  refine ⟨rfl, ?_, ?_⟩ <;> decide

/-- C6: in the image pipeline (initially all-invalid table, quantization
performed, enough capacity that the table never fills), displacing entries
never loses a color: every valid color of the table as stored from the
quantizer result still appears, with at least the same multiplicity, among
the final table's valid entries; and an exact placement that displaces a
valid occupant moves that occupant, unchanged, to the first free index found
by the linear scan (which is distinct from the pinned index). -/
theorem c6_relocation_preserves (quant : QuantFn) (loader : Loader) (p : Palette)
    (converts : List Convert)
    (hx : p.name ≠ "xlibc") (hr : p.name ≠ "rgb332") (hauto : p.automatic = false)
    (himg : p.images ≠ []) (hguard : p.fixedEntries.length ≤ p.maxEntries)
    (hidx : ∀ fe ∈ p.fixedEntries, fe.index < PALETTE_MAX_ENTRIES)
    (h0 : ∀ k, (p.entries k).valid = false)
    (hok : (palette_generate quant loader p converts).err = none)
    (hqi : (palette_generate quant loader p converts).quantInvoked = true)
    (hbudget : (palette_generate quant loader p converts).quantColors.length +
      p.fixedEntries.length ≤ PALETTE_MAX_ENTRIES) :
    (∀ c, colorCount
        (wiStart p (some (palette_generate quant loader p converts).quantColors)).entries c ≤
      colorCount (palette_generate quant loader p converts).palette.entries c) ∧
    (∀ (s : TableState) (fe : PaletteEntry), fe.exact = true →
      (s.entries fe.index).valid = true → validCount s.entries < PALETTE_MAX_ENTRIES →
      firstFreeIndex s.entries ≠ fe.index ∧
      (placeExactStep p.mode s fe).entries (firstFreeIndex s.entries) = s.entries fe.index) := by
  rw [generate_images_branch quant loader p converts hx hr hauto hguard himg]
    at hok hqi hbudget ⊢
  rcases with_images_ok_inversion quant loader p hok with ⟨rows, lq, s2, hrows, hqr, hres, htr⟩
  rw [htr] at hqi hbudget ⊢
  cases hlqe : lq with
  | none =>
    subst hlqe
    exact absurd hqi (by simp [wiSuccess])
  | some qs =>
    subst hlqe
    have hqc : (wiSuccess p rows (some qs) s2).quantColors = qs := rfl
    rw [hqc] at hbudget ⊢
    constructor
    · have hpe : (wiSuccess p rows (some qs) s2).palette.entries =
          (placeExactAll p.mode (wiFixed1 p) s2).entries := rfl
      rw [hpe]
      have hidx1 : ∀ fe ∈ wiFixed1 p, fe.index < PALETTE_MAX_ENTRIES :=
        wiFixed1_index_lt p hidx
      have hRA := resolveNonExactAll_colorCount (some qs)
        (fun qs' h => by cases h; omega) (wiFixed1 p) hidx1
        (wiStart p (some qs)) s2 hres
      have hv0 : validCount (wiStart p (some qs)).entries ≤ qs.length := by
        have hs : wiStart p (some qs) =
            storeQuantizedFrom p.mode 0 qs { entries := p.entries, maxIndex := -1 } := rfl
        rw [hs]
        have hz : validCount p.entries = 0 := validCount_zero p.entries h0
        have := storeQuantizedFrom_validCount p.mode qs 0
          { entries := p.entries, maxIndex := -1 }
        dsimp only at this
        omega
      have hlen : nonExactCount (wiFixed1 p) + exactCount (wiFixed1 p) =
          p.fixedEntries.length := by
        have h1 := nonExactCount_add_exactCount (wiFixed1 p)
        have h2 : (wiFixed1 p).length = p.fixedEntries.length := List.length_map _ _
        omega
      have hP := placeExactAll_colorCount p.mode (wiFixed1 p) hidx1 s2
        (by have := hRA.2; omega)
      exact fun c => le_trans (hRA.1 c) (hP.1 c)
    · intro s fe hex hocc hvlt
      obtain ⟨hfflt, hffinv⟩ := validCount_lt_firstFree s.entries hvlt
      have hne : firstFreeIndex s.entries ≠ fe.index := by
        intro h
        rw [h, hocc] at hffinv
        cases hffinv
      refine ⟨hne, ?_⟩
      unfold placeExactStep
      rw [if_neg (by simp [hex]), if_pos hocc]
      dsimp only
      rw [Function.update_noteq hne, Function.update_same]

/-- C6 witness: one exact entry pinned at index 0 displaces the quantized
color stored there; that color survives (its multiset count does not
drop). -/
theorem c6_relocation_preserves_witness :
    colorCount
        (wiStart
          (exPal "pal" 256 [{ color := exColor 5 5 5, index := 0, exact := true, valid := false }]
            ["img"] 0)
          (some (palette_generate exQuantOne exLoaderOnePixel
            (exPal "pal" 256 [{ color := exColor 5 5 5, index := 0, exact := true, valid := false }]
              ["img"] 0) []).quantColors)).entries
        (quantStoredColor 0 { r := 9, g := 9, b := 9, a := 0 }) ≤
      colorCount
        (palette_generate exQuantOne exLoaderOnePixel
          (exPal "pal" 256 [{ color := exColor 5 5 5, index := 0, exact := true, valid := false }]
            ["img"] 0) []).palette.entries
        (quantStoredColor 0 { r := 9, g := 9, b := 9, a := 0 }) := by
  exact (c6_relocation_preserves exQuantOne exLoaderOnePixel
    (exPal "pal" 256 [{ color := exColor 5 5 5, index := 0, exact := true, valid := false }]
      ["img"] 0) []
    (by decide) (by decide) rfl (by decide) (by decide) (by decide) (fun _ => rfl)
    rfl rfl (by decide)).1
    (quantStoredColor 0 { r := 9, g := 9, b := 9, a := 0 })

/-- C9 (amended): a non-exact fixed entry whose RGB appears neither in the
quantizer's output, nor in the initial table, nor among the exact fixed
colors, causes no error - the run still succeeds - and no write places its
color: the final slot at its pinned index does not hold the fixed RGB.
(Without the initial-table and exact-color exclusions the "no write" part is
false: the search window can match a stale slot, see the counterexample.) -/
theorem c9_unresolved_nonexact (quant : QuantFn) (loader : Loader) (p : Palette)
    (converts : List Convert) (fe : PaletteEntry) (rows : List (List Color))
    (qs : List Rgba)
    (hx : p.name ≠ "xlibc") (hr : p.name ≠ "rgb332") (hauto : p.automatic = false)
    (himg : p.images ≠ []) (hguard : p.fixedEntries.length ≤ p.maxEntries)
    (hrows : wiRows? loader p = some rows) (hne : rows ≠ [])
    (hquant : quant p.quantizeSpeed (wiQuantMax p) (wiSeeds p) rows = .ok qs)
    (hq1 : ∀ q ∈ qs, rgb3 q ≠ rgb3 fe.color.rgb)
    (h0rgb : ∀ k, rgb3 (p.entries k).color.rgb ≠ rgb3 fe.color.rgb)
    (hexcl : ∀ g ∈ p.fixedEntries, g.exact = true → rgb3 g.color.rgb ≠ rgb3 fe.color.rgb) :
    (palette_generate quant loader p converts).err = none ∧
    rgb3 ((palette_generate quant loader p converts).palette.entries fe.index).color.rgb ≠
      rgb3 fe.color.rgb := by
  rw [generate_images_branch quant loader p converts hx hr hauto hguard himg]
  unfold palette_generate_with_images
  rw [hrows]
  dsimp only
  have hni : rows.isEmpty = false := by
    cases rows with
    | nil => exact absurd rfl hne
    | cons a l => rfl
  have hqr : wiQuantRes quant p rows = .ok (some qs) := by
    unfold wiQuantRes
    rw [if_pos (show (!rows.isEmpty) = true by rw [hni]; rfl)]
    rw [hquant]
    rfl
  rw [hqr]
  dsimp only
  rw [resolveNonExactAll_some qs (wiFixed1 p) (wiStart p (some qs))]
  dsimp only
  refine ⟨rfl, ?_⟩
  have hstartA : ∀ k, rgb3 ((wiStart p (some qs)).entries k).color.rgb ≠
      rgb3 fe.color.rgb :=
    wiStart_avoid p qs (rgb3 fe.color.rgb) hq1 h0rgb
  have hresA : ∀ k, rgb3
      (((wiFixed1 p).foldl (resolveNonExactStep qs.length)
        (wiStart p (some qs))).entries k).color.rgb ≠ rgb3 fe.color.rgb := by
    refine foldl_rec_mem (resolveNonExactStep qs.length)
      (fun s => ∀ k, rgb3 (s.entries k).color.rgb ≠ rgb3 fe.color.rgb) (wiFixed1 p)
      (wiStart p (some qs)) hstartA ?_
    intro b a _ hb
    exact resolveNonExactStep_avoid qs.length b a (rgb3 fe.color.rgb) hb
  have hplaceA : ∀ k, rgb3
      ((placeExactAll p.mode (wiFixed1 p)
        ((wiFixed1 p).foldl (resolveNonExactStep qs.length)
          (wiStart p (some qs)))).entries k).color.rgb ≠ rgb3 fe.color.rgb := by
    unfold placeExactAll
    refine foldl_rec_mem (placeExactStep p.mode)
      (fun s => ∀ k, rgb3 (s.entries k).color.rgb ≠ rgb3 fe.color.rgb) (wiFixed1 p)
      _ hresA ?_
    intro b a ha hb
    refine placeExactStep_avoid p.mode b a (rgb3 fe.color.rgb) ?_ hb
    intro haex
    exact hexcl a (mem_wiFixed1 p a ha haex) haex
  exact hplaceA fe.index

/-- C9 witness: a non-exact (8,8,8) entry pinned at index 4, quantizer output
(9,9,9): the run succeeds and slot 4 never receives the fixed RGB. -/
theorem c9_unresolved_nonexact_witness :
    (palette_generate exQuantOne exLoaderOnePixel
      (exPal "pal" 256 [{ color := exColor 8 8 8, index := 4, exact := false, valid := false }]
        ["img"] 0) []).err = none ∧
    rgb3 ((palette_generate exQuantOne exLoaderOnePixel
      (exPal "pal" 256 [{ color := exColor 8 8 8, index := 4, exact := false, valid := false }]
        ["img"] 0) []).palette.entries 4).color.rgb ≠ rgb3 (exColor 8 8 8).rgb := by
  exact c9_unresolved_nonexact exQuantOne exLoaderOnePixel
    (exPal "pal" 256 [{ color := exColor 8 8 8, index := 4, exact := false, valid := false }]
      ["img"] 0) []
    { color := exColor 8 8 8, index := 4, exact := false, valid := false }
    [[{ rgb := { r := 7, g := 7, b := 7, a := 255 }, convertedMode := some 0 }]]
    [{ r := 9, g := 9, b := 9, a := 0 }]
    (by decide) (by decide) rfl (by decide) (by decide) rfl (by decide) rfl
    (by decide)
    (fun _ => (by decide : rgb3 defaultEntry.color.rgb ≠ rgb3 (exColor 8 8 8).rgb))
    (by decide)

/-- C9 counterexample: a non-exact (0,0,0) entry pinned at index 3 whose RGB
is absent from the quantizer output still triggers a write to its pinned
slot: an earlier swap parked a stale zero-RGB slot inside the search window
(lines 438-445 compare raw slot bytes, not quantizer membership), so the
"not found ⇒ no write to entries[fixedEntry.index]" part of the claim is
false. -/
theorem c9_stale_window_write_counterexample :
    (palette_generate exQuantTwo exLoaderOnePixel
      (exPal "pal" 256
        [{ color := exColor 2 2 2, index := 5, exact := false, valid := false },
         { color := exColor 0 0 0, index := 3, exact := false, valid := false }]
        ["img"] 0) []).err = none ∧
    (∀ q ∈ (palette_generate exQuantTwo exLoaderOnePixel
      (exPal "pal" 256
        [{ color := exColor 2 2 2, index := 5, exact := false, valid := false },
         { color := exColor 0 0 0, index := 3, exact := false, valid := false }]
        ["img"] 0) []).quantColors, rgb3 q ≠ rgb3 (exColor 0 0 0).rgb) ∧
    ((palette_generate exQuantTwo exLoaderOnePixel
      (exPal "pal" 256
        [{ color := exColor 2 2 2, index := 5, exact := false, valid := false },
         { color := exColor 0 0 0, index := 3, exact := false, valid := false }]
        ["img"] 0) []).palette.entries 3).valid = true := by
  refine ⟨rfl, by decide, rfl⟩

set_option maxRecDepth 8000 in
/-- C6 counterexample: with every slot valid at exact-placement time (255
quantized colors plus two swap-forced pinned slots), the relocation scan of
lines 481-487 runs off the table: the displaced valid entry (3,100,100) is
written to index 256 - out of bounds for the 256-entry C array, the model's
pseudo-slot - and its color no longer exists at any real index of the final
table, so the displaced entry is not preserved. -/
theorem c6_relocation_overflow_counterexample :
    (palette_generate exQuant255 exLoaderOnePixel c6OverPal []).err = none ∧
    ((palette_generate exQuant255 exLoaderOnePixel c6OverPal []).palette.entries
      PALETTE_MAX_ENTRIES).valid = true ∧
    rgb3 ((palette_generate exQuant255 exLoaderOnePixel c6OverPal []).palette.entries
      PALETTE_MAX_ENTRIES).color.rgb = (3, 100, 100) ∧
    (∀ k, k < PALETTE_MAX_ENTRIES →
      rgb3 ((palette_generate exQuant255 exLoaderOnePixel c6OverPal []).palette.entries
        k).color.rgb ≠ (3, 100, 100)) := by
  refine ⟨rfl, ?_, ?_, ?_⟩ <;> decide

/-- C4 witness: a concrete palette with 2 fixed entries and capacity 1. -/
theorem c4_capacity_guard_witness :
    (exPal "pal" 1 [{ color := exColor 1 1 1, index := 0, exact := true, valid := false },
        { color := exColor 2 2 2, index := 1, exact := false, valid := false }] [] 0).name ≠ "xlibc" ∧
    (palette_generate exQuantEmpty exLoaderFail
        (exPal "pal" 1 [{ color := exColor 1 1 1, index := 0, exact := true, valid := false },
          { color := exColor 2 2 2, index := 1, exact := false, valid := false }] [] 0) []).err =
      some GenError.tooManyFixedColors := by
  refine ⟨by decide, (c4_capacity_guard _ _ _ _ (by decide) (by decide) (by decide)).1⟩

end Convimg
